import Mathlib

/-
Verification of the standalone update orchestrator (mender-update/standalone
and common/context) against its specification.

The C++ sources are shallowly embedded:  machine integers become `Int`/`Nat`,
`expected<T, error::Error>` becomes `Except ErrData T`, the key-value store
becomes an association list from keys to serialized values, and the external
collaborators (update module verbs, artifact parser, file system) become an
environment record holding each fallible step's outcome.  Executions are
instrumented: every orchestrator operation additionally reports the sequence
of external events it triggered and a snapshot of the store after each atomic
store mutation, so that claims about "no intermediate state" and "no verb is
invoked" are statable.
-/

set_option maxHeartbeats 1000000
set_option linter.unusedVariables false
set_option maxRecDepth 40000

namespace Mender

/-! ### Error model (common/error, common/json, common/context error codes) -/

inductive ErrCode where
  | jsonKeyError
  | jsonTypeError
  | jsonParseError
  | dbKeyError
  | dbError
  | dbValueError
  | notSupported
  | opInProgress
  | noUpdateInProgress
  | ioError
  | moduleError
  | programmingError
  deriving DecidableEq, Repr

structure ErrData where
  code : ErrCode
  message : String
  deriving DecidableEq, Repr

instance {ε α : Type} [DecidableEq ε] [DecidableEq α] : DecidableEq (Except ε α) := fun a b =>
  match a, b with
  | .ok x, .ok y =>
    if h : x = y then isTrue (by rw [h]) else isFalse (fun hh => h (Except.ok.injEq x y ▸ hh))
  | .ok _, .error _ => isFalse (fun hh => Except.noConfusion hh)
  | .error _, .ok _ => isFalse (fun hh => Except.noConfusion hh)
  | .error x, .error y =>
    if h : x = y then isTrue (by rw [h]) else isFalse (fun hh => h (Except.error.injEq x y ▸ hh))

/-- `error::Error`; `none` is `error::NoError`. -/
abbrev Error := Option ErrData

def Error.FollowedBy (e1 e2 : Error) : Error :=
  match e1, e2 with
  | none, e => e
  | some d, none => some d
  | some d1, some d2 => some ⟨d1.code, d1.message ++ ", followed by: " ++ d2.message⟩

/-! ### JSON values (common/json data model) -/

inductive Json where
  | num (n : Int)
  | str (s : String)
  | arr (elems : List Json)
  | obj (fields : List (String × Json))

/-! ### Character constants used by the serializers and the parser -/

def quoteChar : Char := Char.ofNat 34
def backslashChar : Char := Char.ofNat 92
def lbraceChar : Char := Char.ofNat 123
def rbraceChar : Char := Char.ofNat 125

def isWsChar (c : Char) : Bool := c = ' ' || c = '\n' || c = '\t' || c = '\r'

def skipWs : List Char → List Char
  | [] => []
  | c :: cs => if isWsChar c then skipWs cs else c :: cs

/-- Body of a JSON string literal, after the opening quote: reads up to the
closing quote, a backslash escaping the character that follows it. -/
def parseStringBody : List Char → Option (List Char × List Char)
  | [] => none
  | c :: cs =>
    if c = quoteChar then some ([], cs)
    else if c = backslashChar then
      match cs with
      | [] => none
      | e :: cs2 =>
        match parseStringBody cs2 with
        | none => none
        | some (s, r) => some (e :: s, r)
    else
      match parseStringBody cs with
      | none => none
      | some (s, r) => some (c :: s, r)

def parseDigits : List Char → List Char × List Char
  | [] => ([], [])
  | c :: cs =>
    if c.isDigit then
      let p := parseDigits cs
      (c :: p.1, p.2)
    else ([], c :: cs)

def digitsToNat (ds : List Char) : Nat :=
  ds.foldl (fun acc c => acc * 10 + (c.toNat - 48)) 0

mutual

def parseValue (fuel : Nat) (cs : List Char) : Option (Json × List Char) :=
  match fuel with
  | 0 => none
  | f + 1 =>
    match skipWs cs with
    | [] => none
    | c :: cs1 =>
      if c = quoteChar then
        match parseStringBody cs1 with
        | none => none
        | some (s, r) => some (.str ⟨s⟩, r)
      else if c = lbraceChar then
        match skipWs cs1 with
        | [] => none
        | d :: r =>
          if d = rbraceChar then some (.obj [], r)
          else
            match parseMembers f (d :: r) with
            | none => none
            | some (fs, r2) => some (.obj fs, r2)
      else if c = '[' then
        match skipWs cs1 with
        | [] => none
        | d :: r =>
          if d = ']' then some (.arr [], r)
          else
            match parseElems f (d :: r) with
            | none => none
            | some (es, r2) => some (.arr es, r2)
      else if c = '-' then
        match parseDigits cs1 with
        | ([], _) => none
        | (ds, r) => some (.num (-(digitsToNat ds : Int)), r)
      else
        match parseDigits (c :: cs1) with
        | ([], _) => none
        | (ds, r) => some (.num (digitsToNat ds), r)

def parseMembers (fuel : Nat) (cs : List Char) : Option (List (String × Json) × List Char) :=
  match fuel with
  | 0 => none
  | f + 1 =>
    match skipWs cs with
    | [] => none
    | c :: cs1 =>
      if c = quoteChar then
        match parseStringBody cs1 with
        | none => none
        | some (k, r1) =>
          match skipWs r1 with
          | [] => none
          | d :: r2 =>
            if d = ':' then
              match parseValue f r2 with
              | none => none
              | some (v, r3) =>
                match skipWs r3 with
                | [] => none
                | e :: r4 =>
                  if e = ',' then
                    match parseMembers f r4 with
                    | none => none
                    | some (fs, r5) => some ((⟨k⟩, v) :: fs, r5)
                  else if e = rbraceChar then some ([(⟨k⟩, v)], r4)
                  else none
            else none
      else none

def parseElems (fuel : Nat) (cs : List Char) : Option (List Json × List Char) :=
  match fuel with
  | 0 => none
  | f + 1 =>
    match parseValue f cs with
    | none => none
    | some (v, r) =>
      match skipWs r with
      | [] => none
      | e :: r2 =>
        if e = ',' then
          match parseElems f r2 with
          | none => none
          | some (es, r3) => some (v :: es, r3)
        else if e = ']' then some ([v], r2)
        else none

end

/-- Modelled from the spec: `json::Load`, the parser of the self-describing
text objects used for the standalone record and `artifact_provides` (the
common/json implementation is not under src/). -/
def jsonLoad (s : String) : Except ErrData Json :=
  match parseValue (s.data.length + 1) s.data with
  | some (j, rest) =>
    if skipWs rest = [] then .ok j
    else .error ⟨.jsonParseError, "Trailing data after JSON value"⟩
  | none => .error ⟨.jsonParseError, "Failed to parse JSON"⟩

/-! ### Typed accessors on JSON values (`Json::Get`, `Json::Get<T>`) -/

def Json.Get (j : Json) (key : String) : Except ErrData Json :=
  match j with
  | .obj fields =>
    match fields.find? (fun kv => kv.1 = key) with
    | some kv => .ok kv.2
    | none => .error ⟨.jsonKeyError, "Key `" ++ key ++ "` not found"⟩
  | _ => .error ⟨.jsonTypeError, "Not a JSON object"⟩

def Json.getInt : Json → Except ErrData Int
  | .num n => .ok n
  | _ => .error ⟨.jsonTypeError, "Type mismatch when retrieving number"⟩

def Json.getString : Json → Except ErrData String
  | .str s => .ok s
  | _ => .error ⟨.jsonTypeError, "Type mismatch when retrieving string"⟩

def strListOfJson : List Json → Option (List String)
  | [] => some []
  | .str s :: rest =>
    match strListOfJson rest with
    | some l => some (s :: l)
    | none => none
  | _ => none

def Json.getStringList : Json → Except ErrData (List String)
  | .arr es =>
    match strListOfJson es with
    | some l => .ok l
    | none => .error ⟨.jsonTypeError, "Type mismatch when retrieving string array"⟩
  | _ => .error ⟨.jsonTypeError, "Type mismatch when retrieving string array"⟩

def strMapOfFields : List (String × Json) → Option (List (String × String))
  | [] => some []
  | (k, .str s) :: rest =>
    match strMapOfFields rest with
    | some m => some ((k, s) :: m)
    | none => none
  | _ => none

def Json.getStringMap : Json → Except ErrData (List (String × String))
  | .obj fs =>
    match strMapOfFields fs with
    | some m => .ok m
    | none => .error ⟨.jsonTypeError, "Type mismatch when retrieving string map"⟩
  | _ => .error ⟨.jsonTypeError, "Type mismatch when retrieving string map"⟩

def Json.GetChildren : Json → Except ErrData (List (String × Json))
  | .obj fs => .ok fs
  | _ => .error ⟨.jsonTypeError, "Not a JSON object"⟩

def Json.IsString : Json → Bool
  | .str _ => true
  | _ => false

/-- `Json::GetString().value()`, used under an `IsString` guard. -/
def Json.GetStringD : Json → String
  | .str s => s
  | _ => ""

/-- The typed read used by `GetEntry<T>`: `exp_value.value().Get<T>()` plus
the default value `T()`. -/
class JsonValue (α : Type) where
  fromJson : Json → Except ErrData α
  defaultVal : α

instance jsonValueInt : JsonValue Int := ⟨Json.getInt, 0⟩
instance jsonValueString : JsonValue String := ⟨Json.getString, ""⟩
instance jsonValueStringList : JsonValue (List String) := ⟨Json.getStringList, []⟩
instance jsonValueStringMap : JsonValue (List (String × String)) := ⟨Json.getStringMap, []⟩

/-- `GetEntry<T>(json, key, missing_ok)` from standalone.cpp, including its
`!=` comparison against the `KeyError` code. -/
def GetEntry (α : Type) [JsonValue α] (json : Json) (key : String) (missing_ok : Bool) :
    Except ErrData α :=
  match json.Get key with
  | .error e =>
    if missing_ok && !(e.code = ErrCode.jsonKeyError) then .ok JsonValue.defaultVal
    else .error ⟨e.code, e.message ++ ": Could not get `" ++ key ++ "` from state data"⟩
  | .ok v => JsonValue.fromJson v

/-! ### The store (common/kv_db) and well-known keys -/

/-- The durable key-value store: keys to serialized string values. -/
abbrev Store := List (String × String)

/-- First-match lookup in an association list. -/
def lookupKV (m : List (String × String)) (k : String) : Option String :=
  match m with
  | [] => none
  | kv :: rest => if kv.1 = k then some kv.2 else lookupKV rest k

/-- Insert-or-update in an association list (`std::map` assignment,
`db.Write`). -/
def setEntry (m : List (String × String)) (k v : String) : List (String × String) :=
  match m with
  | [] => [(k, v)]
  | kv :: rest => if kv.1 = k then (k, v) :: rest else kv :: setEntry rest k v

def eraseEntry : List (String × String) → String → List (String × String)
  | [], _ => []
  | kv :: rest, k => if kv.1 = k then eraseEntry rest k else kv :: eraseEntry rest k

/-- Modelled from the spec: `MenderContext::standalone_state_key` (the
constant lives in a header that is not under src/; only its role as the
store key of the in-progress record matters). -/
def standalone_state_key : String := "standalone-state"

/-- Modelled from the spec: `MenderContext::artifact_name_key` (committed
provenance key). -/
def artifact_name_key : String := "artifact-name"

/-- Modelled from the spec: `MenderContext::artifact_group_key` (committed
provenance key). -/
def artifact_group_key : String := "artifact-group"

/-- Modelled from the spec: `MenderContext::artifact_provides_key` (committed
provenance key; the value is a serialized string-to-string mapping). -/
def artifact_provides_key : String := "artifact-provides"

/-- Modelled from the spec: `MenderContext::standalone_data_version`, the
well-known version constant of the standalone record. -/
def standalone_data_version : Int := 1

/-- Modelled from the spec: `MenderContext::broken_artifact_name_suffix`,
appended to `artifact_name` by `CommitBrokenArtifact`. -/
def broken_artifact_name_suffix : String := "_INCONSISTENT"

/-! ### Fault injection for the store and outcomes of external collaborators -/

/-- Outcomes of the fallible store primitives for one run: `none` means the
primitive succeeds. -/
structure DbFaults where
  readFault : Option ErrData
  writeFault : Option ErrData
  removeFault : Option ErrData
  commitTxnFault : Option ErrData

inductive RebootAction where
  | No
  | Automatic
  | Yes
  deriving DecidableEq, Repr

/-- Outcomes of the update-module verbs for one run (the update module is an
external collaborator; the orchestrator only observes each verb's result). -/
structure UpdateModuleStub where
  prepareFileTree : Error
  download : Error
  artifactInstall : Error
  needsReboot : Except ErrData RebootAction
  supportsRollback : Except ErrData Bool
  artifactCommit : Error
  artifactRollback : Error
  artifactFailure : Error
  cleanup : Error

/-- Payload header view exposed by the artifact parser. -/
structure PayloadHeaderView where
  artifact_name : String
  artifact_group : String
  artifact_provides : Option (List (String × String))
  clears_artifact_provides : Option (List String)
  payload_type : String
  deriving DecidableEq, Repr

/-- Environment of one orchestrator run: outcomes of every external step. -/
structure Env where
  module : UpdateModuleStub
  db : DbFaults
  openFile : Except ErrData Unit
  parseArtifact : Except ErrData Unit
  headerView : Except ErrData PayloadHeaderView
  nextPayload : Except ErrData Unit

/-- `KeyValueDatabase::Read`: an absent key is the distinguished
`database::KeyError`. -/
def dbRead (env : Env) (store : Store) (key : String) : Except ErrData String :=
  match env.db.readFault with
  | some e => .error e
  | none =>
    match lookupKV store key with
    | some v => .ok v
    | none => .error ⟨.dbKeyError, "Key `" ++ key ++ "` not found in database"⟩

/-! ### The standalone state record (StandaloneData) -/

namespace StandaloneDataKeys

def version : String := "Version"
def artifact_name : String := "ArtifactName"
def artifact_group : String := "ArtifactGroup"
def artifact_provides : String := "ArtifactTypeInfoProvides"
def artifact_clears_provides : String := "ArtifactClearsProvides"
def payload_types : String := "PayloadTypes"

end StandaloneDataKeys

structure StandaloneData where
  version : Int
  artifact_name : String
  artifact_group : String
  artifact_provides : Option (List (String × String))
  artifact_clears_provides : Option (List String)
  payload_types : List String
  deriving DecidableEq, Repr

/-! ### Standalone record I/O (standalone.cpp lines 54-208) -/

/-- Field extraction and validation of `LoadStandaloneData` after
`json::Load` succeeded (standalone.cpp lines 73-132). -/
def standaloneDataFromJson (json : Json) : Except ErrData StandaloneData :=
  match GetEntry Int json StandaloneDataKeys.version false with
  | .error e => .error e
  | .ok version =>
  match GetEntry String json StandaloneDataKeys.artifact_name false with
  | .error e => .error e
  | .ok artifact_name =>
  match GetEntry String json StandaloneDataKeys.artifact_group true with
  | .error e => .error e
  | .ok artifact_group =>
  let artifact_provides :=
    match GetEntry (List (String × String)) json StandaloneDataKeys.artifact_provides false with
    | .ok m => some m
    | .error _ => none
  let artifact_clears_provides :=
    match GetEntry (List String) json StandaloneDataKeys.artifact_clears_provides false with
    | .ok l => some l
    | .error _ => none
  match GetEntry (List String) json StandaloneDataKeys.payload_types false with
  | .error e => .error e
  | .ok payload_types =>
  if version ≠ standalone_data_version then
    .error ⟨.notSupported, "State data has a version which is not supported by this client"⟩
  else if artifact_name = "" then
    .error ⟨.dbValueError, "`" ++ StandaloneDataKeys.artifact_name ++ "` is empty"⟩
  else if payload_types.length = 0 then
    .error ⟨.dbValueError, "`" ++ StandaloneDataKeys.payload_types ++ "` is empty"⟩
  else if payload_types.length ≥ 2 then
    .error ⟨.notSupported, "`" ++ StandaloneDataKeys.payload_types ++ "` contains multiple payloads"⟩
  else
    .ok ⟨version, artifact_name, artifact_group, artifact_provides,
      artifact_clears_provides, payload_types⟩

/-- `LoadStandaloneData`: `.ok none` is "no update in progress" (the C++
returns `false` and leaves `dst` untouched). -/
def LoadStandaloneData (env : Env) (store : Store) : Except ErrData (Option StandaloneData) :=
  match dbRead env store standalone_state_key with
  | .error e => if e.code = ErrCode.dbKeyError then .ok none else .error e
  | .ok bytes =>
    match jsonLoad bytes with
    | .error e => .error e
    | .ok json =>
      match standaloneDataFromJson json with
      | .error e => .error e
      | .ok dst => .ok (some dst)

/-- Comma-joined quoted strings, as written by the `first`-flag loops of
`SaveStandaloneData`.  No escaping is applied, as in the source. -/
def joinQuotedStrings : List String → String
  | [] => ""
  | [x] => "\"" ++ x ++ "\""
  | x :: rest => "\"" ++ x ++ "\"" ++ "," ++ joinQuotedStrings rest

def joinQuotedPairs : List (String × String) → String
  | [] => ""
  | [kv] => "\"" ++ kv.1 ++ "\":\"" ++ kv.2 ++ "\""
  | kv :: rest => "\"" ++ kv.1 ++ "\":\"" ++ kv.2 ++ "\"" ++ "," ++ joinQuotedPairs rest

/-- The string built by `SaveStandaloneData`'s stringstream
(standalone.cpp lines 146-200), byte for byte. -/
def serializeStandaloneData (data : StandaloneData) : String :=
  "\x7b" ++ "\"" ++ StandaloneDataKeys.version ++ "\":" ++ toString data.version
  ++ "," ++ "\"" ++ StandaloneDataKeys.artifact_name ++ "\":\"" ++ data.artifact_name ++ "\""
  ++ "," ++ "\"" ++ StandaloneDataKeys.artifact_group ++ "\":\"" ++ data.artifact_group ++ "\""
  ++ "," ++ "\"" ++ StandaloneDataKeys.payload_types ++ "\": ["
    ++ joinQuotedStrings data.payload_types ++ "]"
  ++ (match data.artifact_provides with
      | some m => "," ++ "\"" ++ StandaloneDataKeys.artifact_provides ++ "\": \x7b"
          ++ joinQuotedPairs m ++ "\x7d"
      | none => "")
  ++ (match data.artifact_clears_provides with
      | some l => "," ++ "\"" ++ StandaloneDataKeys.artifact_clears_provides ++ "\": ["
          ++ joinQuotedStrings l ++ "]"
      | none => "")
  ++ "\x7d"

def SaveStandaloneData (env : Env) (store : Store) (data : StandaloneData) :
    Except ErrData Store :=
  match env.db.writeFault with
  | some e => .error e
  | none => .ok (setEntry store standalone_state_key (serializeStandaloneData data))

def RemoveStandaloneData (env : Env) (store : Store) : Except ErrData Store :=
  match env.db.removeFault with
  | some e => .error e
  | none => .ok (eraseEntry store standalone_state_key)

def StandaloneDataFromPayloadHeaderView (header : PayloadHeaderView) : StandaloneData where
  version := standalone_data_version
  artifact_name := header.artifact_name
  artifact_group := header.artifact_group
  artifact_provides := header.artifact_provides
  artifact_clears_provides := header.clears_artifact_provides
  payload_types := [header.payload_type]

/-! ### Committed provenance (common/context) -/

/-- `MenderContext::LoadProvides` (context.cpp lines 66-123). -/
def LoadProvides (env : Env) (store : Store) : Except ErrData (List (String × String)) :=
  match env.db.readFault with
  | some e => .error e
  | none =>
    let artifact_name := (lookupKV store artifact_name_key).getD ""
    let artifact_group := (lookupKV store artifact_group_key).getD ""
    let artifact_provides_str := (lookupKV store artifact_provides_key).getD ""
    let ret := (if artifact_name ≠ "" then [("artifact_name", artifact_name)] else [])
      ++ (if artifact_group ≠ "" then [("artifact_group", artifact_group)] else [])
    if artifact_provides_str = "" then .ok ret
    else
      match jsonLoad artifact_provides_str with
      | .error e => .error e
      | .ok j =>
        match j.GetChildren with
        | .error e => .error e
        | .ok children =>
          if children.all (fun kv => kv.2.IsString) then
            .ok (children.foldl (fun acc kv => setEntry acc kv.1 kv.2.GetStringD) ret)
          else .error ⟨.jsonTypeError, "Unexpected non-string data in provides"⟩

def escapeChars : List Char → List Char
  | [] => []
  | c :: cs =>
    if c = quoteChar || c = backslashChar then backslashChar :: c :: escapeChars cs
    else c :: escapeChars cs

def quotedLit (s : String) : List Char := quoteChar :: (escapeChars s.data ++ [quoteChar])

def serializeMapEntries : List (String × String) → List Char
  | [] => []
  | [kv] => quotedLit kv.1 ++ ':' :: quotedLit kv.2
  | kv :: rest => (quotedLit kv.1 ++ ':' :: quotedLit kv.2) ++ ',' :: serializeMapEntries rest

/-- Modelled from the spec: the serialization of the committed
`artifact_provides` mapping written by `CommitArtifactData` (a correct
text-object writer, escaping quotes and backslashes). -/
def serializeStringMap (m : List (String × String)) : String :=
  ⟨lbraceChar :: (serializeMapEntries m ++ [rbraceChar])⟩

/-- `json::Load` followed by reading a string-to-string object. -/
def parseStringObject (s : String) : Except ErrData (List (String × String)) :=
  match jsonLoad s with
  | .error e => .error e
  | .ok j => j.getStringMap

/-- Glob match with `*` wildcards, for the clears-provides patterns. -/
def globMatch (p k : List Char) : Bool :=
  match p, k with
  | [], [] => true
  | [], _ :: _ => false
  | '*' :: ps, [] => globMatch ps []
  | '*' :: ps, c :: ks => globMatch ps (c :: ks) || globMatch ('*' :: ps) ks
  | _ :: _, [] => false
  | q :: ps, c :: ks => q = c && globMatch ps ks
termination_by (p.length, k.length)

def matchesAnyPattern (pats : List String) (key : String) : Bool :=
  pats.any (fun p => globMatch p.data key.data)

/-- Modelled from the spec: `MenderContext::CommitArtifactData` (declared in
a header outside src/).  Within one store transaction it (1) drops every
existing `artifact_provides` entry matching a clears-provides pattern,
(2) writes the new `artifact_name`, `artifact_group` and provides entries,
and (3) runs the caller's auxiliary mutation; a failure anywhere aborts the
whole transaction, leaving the store unchanged. -/
def CommitArtifactData (env : Env) (store : Store) (artifact_name artifact_group : String)
    (provides : Option (List (String × String))) (clears_provides : Option (List String))
    (txn : Store → Store) : Except ErrData Store :=
  match env.db.commitTxnFault with
  | some e => .error e
  | none =>
    let existingStr := (lookupKV store artifact_provides_key).getD ""
    match (if existingStr = "" then .ok [] else parseStringObject existingStr :
        Except ErrData (List (String × String))) with
    | .error e => .error e
    | .ok existing =>
      let kept := existing.filter
        (fun kv => !(matchesAnyPattern (clears_provides.getD []) kv.1))
      let merged := (provides.getD []).foldl (fun acc kv => setEntry acc kv.1 kv.2) kept
      let st := setEntry (setEntry (setEntry store
        artifact_name_key artifact_name)
        artifact_group_key artifact_group)
        artifact_provides_key (serializeStringMap merged)
      .ok (txn st)

/-- `CommitBrokenArtifact` (standalone.cpp lines 499-512). -/
def CommitBrokenArtifact (env : Env) (data : StandaloneData) (store : Store) :
    Except ErrData Store :=
  let artifact_name := data.artifact_name ++ broken_artifact_name_suffix
  let artifact_provides := data.artifact_provides.map
    (fun m => setEntry m "artifact_name" artifact_name)
  CommitArtifactData env store artifact_name data.artifact_group artifact_provides
    data.artifact_clears_provides
    (fun st => eraseEntry st standalone_state_key)

/-- Reads the committed provides mapping back out of the store and looks a
key up in it. -/
def lookupStoredProvides (store : Store) (k : String) : Option String :=
  match lookupKV store artifact_provides_key with
  | none => none
  | some s =>
    match parseStringObject s with
    | .ok m => lookupKV m k
    | .error _ => none

/-! ### The orchestrator (standalone.cpp lines 210-497) -/

inductive Result where
  | Installed
  | InstalledRebootRequired
  | InstalledAndCommitted
  | InstalledAndCommittedRebootRequired
  | InstalledButFailedInPostCommit
  | Committed
  | RolledBack
  | NoRollback
  | RollbackFailed
  | NoUpdateInProgress
  | FailedNothingDone
  | FailedAndRolledBack
  | FailedAndNoRollback
  | FailedAndRollbackFailed
  deriving DecidableEq, Repr

/-- External steps the orchestrator can trigger, in invocation order. -/
inductive Event where
  | openFile
  | parseArtifact
  | headerView
  | prepareFileTree
  | download
  | artifactInstall
  | needsReboot
  | supportsRollback
  | artifactCommit
  | artifactRollback
  | artifactFailure
  | cleanup
  deriving DecidableEq, Repr

/-- The C++ `ResultAndError`, instrumented with the final store, a snapshot
of the store after each atomic store mutation, and the external events the
run triggered. -/
structure Exec where
  result : Result
  err : Error
  store : Store
  storeTrace : List Store
  events : List Event
  deriving DecidableEq, Repr

def Exec.prepend (pre : List Event) (e : Exec) : Exec :=
  { e with events := pre ++ e.events }

/-- `DoRollback` (standalone.cpp lines 426-445). -/
def DoRollback (env : Env) (data : StandaloneData) (store : Store) : Exec :=
  match env.module.supportsRollback with
  | .error e => ⟨.NoRollback, some e, store, [], [.supportsRollback]⟩
  | .ok true =>
    match env.module.artifactRollback with
    | some e => ⟨.RollbackFailed, some e, store, [], [.supportsRollback, .artifactRollback]⟩
    | none => ⟨.RolledBack, none, store, [], [.supportsRollback, .artifactRollback]⟩
  | .ok false => ⟨.NoRollback, none, store, [], [.supportsRollback]⟩

/-- `InstallationFailureHandler` (standalone.cpp lines 447-497). -/
def InstallationFailureHandler (env : Env) (data : StandaloneData) (store : Store) : Exec :=
  let r := DoRollback env data store
  match (match r.result with
    | .RolledBack => some Result.FailedAndRolledBack
    | .NoRollback => some Result.FailedAndNoRollback
    | .RollbackFailed => some Result.FailedAndRollbackFailed
    | _ => none) with
  | none =>
    { result := .FailedAndRollbackFailed,
      err := some ⟨.programmingError,
        "Unexpected result in InstallationFailureHandler. This is a bug."⟩,
      store := r.store, storeTrace := r.storeTrace, events := r.events }
  | some result0 =>
    let p1 :=
      match env.module.artifactFailure with
      | some e => (Result.FailedAndRollbackFailed, Error.FollowedBy r.err (some e))
      | none => (result0, r.err)
    let p2 :=
      match env.module.cleanup with
      | some e => (Result.FailedAndRollbackFailed, Error.FollowedBy p1.2 (some e))
      | none => p1
    let fin : Except ErrData Store :=
      if p2.1 = .FailedAndRolledBack then RemoveStandaloneData env r.store
      else CommitBrokenArtifact env data r.store
    match fin with
    | .ok st =>
      { result := p2.1, err := p2.2, store := st, storeTrace := r.storeTrace ++ [st],
        events := r.events ++ [.artifactFailure, .cleanup] }
    | .error e =>
      { result := .FailedAndRollbackFailed, err := Error.FollowedBy p2.2 (some e), store := r.store,
        storeTrace := r.storeTrace, events := r.events ++ [.artifactFailure, .cleanup] }

/-- `DoCommit` (standalone.cpp lines 391-424).  The removal of the
standalone record runs inside the `CommitArtifactData` transaction. -/
def DoCommit (env : Env) (data : StandaloneData) (store : Store) : Exec :=
  match env.module.artifactCommit with
  | some _e =>
    Exec.prepend [.artifactCommit] (InstallationFailureHandler env data store)
  | none =>
    let p1 :=
      match env.module.cleanup with
      | some e => (Result.InstalledButFailedInPostCommit, (some e : Error))
      | none => (Result.Committed, (none : Error))
    match CommitArtifactData env store data.artifact_name data.artifact_group
        data.artifact_provides data.artifact_clears_provides
        (fun st => eraseEntry st standalone_state_key) with
    | .ok st =>
      { result := p1.1, err := p1.2, store := st, storeTrace := [st],
        events := [.artifactCommit, .cleanup] }
    | .error e =>
      { result := .InstalledButFailedInPostCommit, err := Error.FollowedBy p1.2 (some e),
        store := store, storeTrace := [], events := [.artifactCommit, .cleanup] }

/-- `Commit` (standalone.cpp lines 273-289). -/
def Commit (env : Env) (store : Store) : Exec :=
  match LoadStandaloneData env store with
  | .error e => ⟨.FailedNothingDone, some e, store, [], []⟩
  | .ok none =>
    ⟨.NoUpdateInProgress, some ⟨.noUpdateInProgress, "Cannot commit"⟩, store, [], []⟩
  | .ok (some data) => DoCommit env data store

/-- `Rollback` (standalone.cpp lines 291-331). -/
def Rollback (env : Env) (store : Store) : Exec :=
  match LoadStandaloneData env store with
  | .error e => ⟨.FailedNothingDone, some e, store, [], []⟩
  | .ok none =>
    ⟨.NoUpdateInProgress, some ⟨.noUpdateInProgress, "Cannot roll back"⟩, store, [], []⟩
  | .ok (some data) =>
    let r := DoRollback env data store
    if r.result = .NoRollback then r
    else
      let p1 :=
        match env.module.cleanup with
        | some e => (Result.FailedAndRollbackFailed, Error.FollowedBy r.err (some e))
        | none => (r.result, r.err)
      let fin : Except ErrData Store :=
        if p1.1 = .RolledBack then RemoveStandaloneData env r.store
        else CommitBrokenArtifact env data r.store
      match fin with
      | .ok st =>
        { result := p1.1, err := p1.2, store := st, storeTrace := r.storeTrace ++ [st],
          events := r.events ++ [.cleanup] }
      | .error e =>
        { result := .RollbackFailed, err := Error.FollowedBy p1.2 (some e), store := r.store,
          storeTrace := r.storeTrace, events := r.events ++ [.cleanup] }

/-- `DoInstallStates` (standalone.cpp lines 333-389). -/
def DoInstallStates (env : Env) (data : StandaloneData) (store : Store) : Exec :=
  match env.nextPayload with
  | .error e => ⟨.FailedNothingDone, some e, store, [], []⟩
  | .ok _ =>
    match env.module.download with
    | some e =>
      let err1 := Error.FollowedBy (some e) env.module.cleanup
      match RemoveStandaloneData env store with
      | .ok st => ⟨.FailedNothingDone, err1, st, [st], [.download, .cleanup]⟩
      | .error e2 =>
        ⟨.FailedNothingDone, Error.FollowedBy err1 (some e2), store, [], [.download, .cleanup]⟩
    | none =>
      match env.module.artifactInstall with
      | some _e =>
        Exec.prepend [.download, .artifactInstall] (InstallationFailureHandler env data store)
      | none =>
        match env.module.needsReboot with
        | .error _e =>
          Exec.prepend [.download, .artifactInstall, .needsReboot]
            (InstallationFailureHandler env data store)
        | .ok reboot =>
          match env.module.supportsRollback with
          | .error _e =>
            Exec.prepend [.download, .artifactInstall, .needsReboot, .supportsRollback]
              (InstallationFailureHandler env data store)
          | .ok true =>
            if reboot ≠ .No then
              ⟨.InstalledRebootRequired, none, store, [],
                [.download, .artifactInstall, .needsReboot, .supportsRollback]⟩
            else
              ⟨.Installed, none, store, [],
                [.download, .artifactInstall, .needsReboot, .supportsRollback]⟩
          | .ok false =>
            let r := Exec.prepend [.download, .artifactInstall, .needsReboot, .supportsRollback]
              (DoCommit env data store)
            if r.result = .Committed then
              { r with result :=
                  if reboot ≠ .No then .InstalledAndCommittedRebootRequired
                  else .InstalledAndCommitted }
            else r

def listPrefixOf : List Char → List Char → Bool
  | [], _ => true
  | _ :: _, [] => false
  | p :: ps, c :: cs => p = c && listPrefixOf ps cs

/-- `src.find(pre) == 0`: the string starts with the given literal. -/
def startsWithStr (s pre : String) : Bool :=
  listPrefixOf pre.data s.data

/-- `Install` (standalone.cpp lines 210-271). -/
def Install (env : Env) (store : Store) (src : String) : Exec :=
  match LoadStandaloneData env store with
  | .error e => ⟨.FailedNothingDone, some e, store, [], []⟩
  | .ok (some _) =>
    ⟨.FailedNothingDone,
      some ⟨.opInProgress, "Update already in progress. Please commit or roll back first"⟩,
      store, [], []⟩
  | .ok none =>
    if startsWithStr src "http://" || startsWithStr src "https://" then
      ⟨.FailedNothingDone, some ⟨.notSupported, "HTTP not supported yet"⟩, store, [], []⟩
    else
      match env.openFile with
      | .error e => ⟨.FailedNothingDone, some e, store, [], [.openFile]⟩
      | .ok _ =>
        match env.parseArtifact with
        | .error e => ⟨.FailedNothingDone, some e, store, [], [.openFile, .parseArtifact]⟩
        | .ok _ =>
          match env.headerView with
          | .error e =>
            ⟨.FailedNothingDone, some e, store, [], [.openFile, .parseArtifact, .headerView]⟩
          | .ok header =>
            match env.module.prepareFileTree with
            | some e =>
              ⟨.FailedNothingDone, Error.FollowedBy (some e) env.module.cleanup, store, [],
                [.openFile, .parseArtifact, .headerView, .prepareFileTree, .cleanup]⟩
            | none =>
              let data := StandaloneDataFromPayloadHeaderView header
              match SaveStandaloneData env store data with
              | .error e =>
                ⟨.FailedNothingDone, Error.FollowedBy (some e) env.module.cleanup, store, [],
                  [.openFile, .parseArtifact, .headerView, .prepareFileTree, .cleanup]⟩
              | .ok st =>
                let r := DoInstallStates env data st
                { r with
                  storeTrace := st :: r.storeTrace,
                  events := [.openFile, .parseArtifact, .headerView, .prepareFileTree]
                    ++ r.events }

/-! ### setEntry membership lemmas -/

theorem mem_setEntry_self (m : List (String × String)) (k v : String) :
    (k, v) ∈ setEntry m k v := by
  induction m with
  | nil => simp [setEntry]
  | cons kv rest ih =>
    by_cases h : kv.1 = k
    · simp [setEntry, h]
    · simp [setEntry, h, ih]

theorem mem_keys_setEntry (m : List (String × String)) (k v x : String)
    (h : x ∈ (setEntry m k v).map Prod.fst) : x ∈ m.map Prod.fst ∨ x = k := by
  induction m with
  | nil =>
    simp [setEntry] at h
    exact Or.inr h
  | cons kv rest ih =>
    by_cases h1 : kv.1 = k
    · simp only [setEntry, h1, if_pos] at h
      simp only [List.map_cons, List.mem_cons] at h ⊢
      rcases h with h | h
      · exact Or.inr h
      · exact Or.inl (Or.inr h)
    · simp only [setEntry, h1, if_neg, not_false_iff] at h
      simp only [List.map_cons, List.mem_cons] at h ⊢
      rcases h with h | h
      · exact Or.inl (Or.inl h)
      · rcases ih h with h2 | h2
        · exact Or.inl (Or.inr h2)
        · exact Or.inr h2

theorem setEntry_keys_nodup (m : List (String × String)) (k v : String)
    (h : (m.map Prod.fst).Nodup) : ((setEntry m k v).map Prod.fst).Nodup := by
  induction m with
  | nil => simp [setEntry]
  | cons kv rest ih =>
    simp only [List.map_cons, List.nodup_cons] at h
    by_cases h1 : kv.1 = k
    · subst h1
      simp only [setEntry]
      simpa using h
    · simp only [setEntry, h1, if_neg, not_false_iff, List.map_cons, List.nodup_cons]
      refine ⟨?_, ih h.2⟩
      intro hmem
      rcases mem_keys_setEntry rest k v kv.1 hmem with h2 | h2
      · exact h.1 h2
      · exact h1 h2

/-! ### Result range of InstallationFailureHandler -/

theorem IFH_result_cases (env : Env) (data : StandaloneData) (store : Store) :
    (InstallationFailureHandler env data store).result = .FailedAndRolledBack ∨
    (InstallationFailureHandler env data store).result = .FailedAndNoRollback ∨
    (InstallationFailureHandler env data store).result = .FailedAndRollbackFailed := by
  unfold InstallationFailureHandler DoRollback
  rcases env.module.supportsRollback with e | b
  · rcases env.module.artifactFailure with _ | ea <;>
      rcases env.module.cleanup with _ | ec <;>
      rcases hcb : CommitBrokenArtifact env data store with e2 | st2 <;> simp [hcb]
  · cases b
    · rcases env.module.artifactFailure with _ | ea <;>
        rcases env.module.cleanup with _ | ec <;>
        rcases hcb : CommitBrokenArtifact env data store with e2 | st2 <;> simp [hcb]
    · rcases env.module.artifactRollback with _ | er <;>
        rcases env.module.artifactFailure with _ | ea <;>
        rcases env.module.cleanup with _ | ec <;>
        rcases hrm : RemoveStandaloneData env store with e2 | st2 <;>
        rcases hcb : CommitBrokenArtifact env data store with e3 | st3 <;>
        simp [hrm, hcb]

/-! ### Helper observers and concrete fixtures -/

def errCodeOf {α : Type} : Except ErrData α → Option ErrCode
  | .error e => some e.code
  | .ok _ => none

/-- A module whose every verb succeeds, supports rollback, needs no reboot. -/
def okModule : UpdateModuleStub :=
  ⟨none, none, none, .ok .No, .ok true, none, none, none, none⟩

def noFaults : DbFaults := ⟨none, none, none, none⟩

def envOk : Env :=
  ⟨okModule, noFaults, .ok (), .ok (),
    .ok ⟨"art1", "grp", some [("k", "v")], some ["c"], "rootfs"⟩, .ok ()⟩

def sampleData : StandaloneData :=
  ⟨1, "art1", "grp", some [("k", "v")], some ["c"], ["rootfs"]⟩

def sampleStore : Store := [(standalone_state_key, serializeStandaloneData sampleData)]

/-- A module that reports no rollback support, all other verbs succeeding. -/
def envNR : Env :=
  { envOk with module := { okModule with supportsRollback := .ok false } }

/-- A store with committed provenance and a provides object, for exercising
`LoadProvides`. -/
def c7Store : Store :=
  [(artifact_name_key, "art"), (artifact_provides_key, "\x7b\"a\":\"1\"\x7d")]

def c7Json : Json := .obj [("a", .str "1")]

/-- The store after committing the broken artifact in the C2 scenario. -/
def c2Store : Store :=
  match CommitBrokenArtifact envNR sampleData sampleStore with
  | .ok st => st
  | .error _ => []


def c9RecordStr : String :=
  "\x7b\"Version\":1,\"ArtifactName\":\"a\",\"PayloadTypes\": [\"t\"]\x7d"

def c9Store : Store := [(standalone_state_key, c9RecordStr)]


/-- A module whose rollback-support query fails. -/
def envRbErr : Env :=
  { envOk with module := { okModule with supportsRollback := .error ⟨.moduleError, "query failed"⟩ } }


def c4RecordStr : String :=
  "\x7b\"Version\":2,\"ArtifactName\":\"\",\"ArtifactGroup\":\"\",\"PayloadTypes\": [\"t\"]\x7d"

def c4Store : Store := [(standalone_state_key, c4RecordStr)]

def c4Json : Json :=
  .obj [("Version", .num 2), ("ArtifactName", .str ""), ("ArtifactGroup", .str ""),
    ("PayloadTypes", .arr [.str "t"])]



/-- A record that is valid by the stated criteria but whose name holds a
double quote. -/
def c3Bad : StandaloneData := ⟨1, "a\"b", "", none, none, ["t"]⟩

/-! ### Specification gadgets for the parser proofs -/

/-- The head of the remaining input is not a digit (so an integer literal
before it ends where expected). -/
def headNotDigit (cs : List Char) : Prop := ∀ c, cs.head? = some c → c.isDigit = false

/-- Characters that the hand-rolled writer of `SaveStandaloneData` emits
verbatim and that a text-object parser reads back verbatim. -/
abbrev benignStr (s : String) : Prop := ∀ c ∈ s.data, c ≠ quoteChar ∧ c ≠ backslashChar

abbrev benignData (d : StandaloneData) : Prop :=
  benignStr d.artifact_name ∧ benignStr d.artifact_group ∧
  (∀ x ∈ d.payload_types, benignStr x) ∧
  (∀ kv ∈ d.artifact_provides.getD [], benignStr kv.1 ∧ benignStr kv.2) ∧
  (∀ x ∈ d.artifact_clears_provides.getD [], benignStr x)

/-- One serialized object member: the emitted characters of its key, the
whitespace after the colon, the emitted characters of its value, and the
key/value it must parse back to with the value's fuel requirement. -/
structure MemberSpec where
  kchars : List Char
  key : String
  sp : List Char
  vchars : List Char
  val : Json
  vfuel : Nat

def emitMember (m : MemberSpec) : List Char :=
  quoteChar :: (m.kchars ++ quoteChar :: ':' :: (m.sp ++ m.vchars))

def emitMembers : List MemberSpec → List Char
  | [] => []
  | [m] => emitMember m
  | m :: ms => emitMember m ++ ',' :: emitMembers ms

def memberFuel : List MemberSpec → Nat
  | [] => 0
  | m :: ms => m.vfuel + 1 + memberFuel ms

def MemberOk (m : MemberSpec) : Prop :=
  (∀ rest, parseStringBody (m.kchars ++ quoteChar :: rest) = some (m.key.data, rest)) ∧
  (∀ c ∈ m.sp, isWsChar c = true) ∧
  (∀ (f : Nat) (rest : List Char), headNotDigit rest →
    parseValue (m.vfuel + f + 1) (m.vchars ++ rest) = some (m.val, rest))

/-- Member of a raw (unescaped) string-valued object, as `SaveStandaloneData`
emits them. -/
def strMemberSpec (k v : String) : MemberSpec :=
  ⟨k.data, k, [], quoteChar :: (v.data ++ [quoteChar]), .str v, 1⟩

/-- Member of an escaped string-valued object, as `serializeStringMap`
emits them. -/
def escMemberSpec (k v : String) : MemberSpec :=
  ⟨escapeChars k.data, k, [], quotedLit v, .str v, 1⟩

/-- The member list of the serialized standalone record. -/
def recordSpecs (d : StandaloneData) : List MemberSpec :=
  [⟨StandaloneDataKeys.version.data, StandaloneDataKeys.version, [],
      (toString d.version).data, .num d.version, 1⟩,
    strMemberSpec StandaloneDataKeys.artifact_name d.artifact_name,
    strMemberSpec StandaloneDataKeys.artifact_group d.artifact_group,
    ⟨StandaloneDataKeys.payload_types.data, StandaloneDataKeys.payload_types, [' '],
      '[' :: ((joinQuotedStrings d.payload_types).data ++ [']']),
      .arr (d.payload_types.map .str), d.payload_types.length + 2⟩]
  ++ (match d.artifact_provides with
      | some m =>
        [⟨StandaloneDataKeys.artifact_provides.data, StandaloneDataKeys.artifact_provides, [' '],
          lbraceChar :: ((joinQuotedPairs m).data ++ [rbraceChar]),
          .obj (m.map (fun kv => (kv.1, .str kv.2))), 2 * m.length + 2⟩]
      | none => [])
  ++ (match d.artifact_clears_provides with
      | some l =>
        [⟨StandaloneDataKeys.artifact_clears_provides.data,
          StandaloneDataKeys.artifact_clears_provides, [' '],
          '[' :: ((joinQuotedStrings l).data ++ [']']),
          .arr (l.map .str), l.length + 2⟩]
      | none => [])

/-- The JSON value the serialized standalone record parses back to. -/
def recordJson (d : StandaloneData) : Json :=
  .obj ((recordSpecs d).map (fun m => (m.key, m.val)))

/-! ### Parser lemmas: strings, digits, whitespace -/

theorem strMk_data (s : String) : (⟨s.data⟩ : String) = s := rfl

theorem skipWs_not_ws (c : Char) (cs : List Char) (h : isWsChar c = false) :
    skipWs (c :: cs) = c :: cs := by
  simp [skipWs, h]

theorem skipWs_ws_prefix (sp cs : List Char) (h : ∀ c ∈ sp, isWsChar c = true) :
    skipWs (sp ++ cs) = skipWs cs := by
  induction sp with
  | nil => rfl
  | cons a sp1 ih =>
    have ha : isWsChar a = true := h a (by simp)
    simp only [List.cons_append, skipWs, ha, if_true]
    exact ih (fun c hc => h c (by simp [hc]))

theorem parseStringBody_benign (s rest : List Char)
    (h : ∀ c ∈ s, c ≠ quoteChar ∧ c ≠ backslashChar) :
    parseStringBody (s ++ quoteChar :: rest) = some (s, rest) := by
  induction s with
  | nil =>
    rw [parseStringBody.eq_def]
    simp
  | cons a s1 ih =>
    have ha := h a (by simp)
    have ih1 := ih (fun c hc => h c (by simp [hc]))
    rw [List.cons_append, parseStringBody.eq_def]
    simp only [if_neg ha.1, if_neg ha.2, ih1]

theorem parseStringBody_escaped (s rest : List Char) :
    parseStringBody (escapeChars s ++ quoteChar :: rest) = some (s, rest) := by
  induction s with
  | nil =>
    rw [escapeChars, parseStringBody.eq_def]
    simp
  | cons a s1 ih =>
    have hbq : (backslashChar = quoteChar) = False := by decide
    by_cases h1 : a = quoteChar
    · rw [escapeChars]
      rw [if_pos (by simp [h1])]
      rw [List.cons_append, parseStringBody.eq_def]
      simp [hbq, ih, h1]
    · by_cases h2 : a = backslashChar
      · rw [escapeChars]
        rw [if_pos (by simp [h2])]
        rw [List.cons_append, parseStringBody.eq_def]
        simp [hbq, ih, h2]
      · rw [escapeChars]
        rw [if_neg (by simp [h1, h2])]
        rw [List.cons_append, parseStringBody.eq_def]
        simp [h1, h2, ih]

theorem parseDigits_head_not_digit (cs : List Char) (h : headNotDigit cs) :
    parseDigits cs = ([], cs) := by
  cases cs with
  | nil => rfl
  | cons a cs1 =>
    have := h a rfl
    simp [parseDigits, this]

/-! ### Parser lemmas: values -/

theorem parseValue_ws (sp cs : List Char) (f : Nat) (h : ∀ c ∈ sp, isWsChar c = true) :
    parseValue f (sp ++ cs) = parseValue f cs := by
  cases f with
  | zero => rfl
  | succ f1 => simp only [parseValue, skipWs_ws_prefix sp cs h]

theorem parseValue_str (s : String) (rest : List Char) (f : Nat)
    (h : benignStr s) :
    parseValue (f + 1) (quoteChar :: (s.data ++ quoteChar :: rest)) =
      some (.str s, rest) := by
  have hq : isWsChar quoteChar = false := by decide
  simp only [parseValue, skipWs_not_ws _ _ hq, if_pos rfl,
    parseStringBody_benign s.data rest h, strMk_data]
  simp

theorem parseValue_one (rest : List Char) (f : Nat) (h : headNotDigit rest) :
    parseValue (f + 1) ('1' :: rest) = some (.num 1, rest) := by
  have h1 : isWsChar '1' = false := by decide
  have h2 : ('1' = quoteChar) = False := by decide
  have h3 : ('1' = lbraceChar) = False := by decide
  have h4 : ('1' = '[') = False := by decide
  have h5 : ('1' = '-') = False := by decide
  have h6 : '1'.isDigit = true := by decide
  simp only [parseValue, skipWs_not_ws _ _ h1, h2, h3, h4, h5, if_false,
    parseDigits, parseDigits_head_not_digit rest h, h6, if_true]
  norm_num
  decide

/-! ### Parser lemmas: arrays of strings -/

theorem joinQS_data_single (x : String) :
    (joinQuotedStrings [x]).data = quoteChar :: (x.data ++ [quoteChar]) := by
  have h1 : "\"".data = [quoteChar] := by decide
  simp [joinQuotedStrings, String.data_append, h1]
  decide

theorem joinQS_data_cons (x y : String) (xs : List String) :
    (joinQuotedStrings (x :: y :: xs)).data =
      quoteChar :: (x.data ++ quoteChar :: ',' :: (joinQuotedStrings (y :: xs)).data) := by
  have h1 : "\"".data = [quoteChar] := by decide
  have h2 : ",".data = [','] := by decide
  simp [joinQuotedStrings, String.data_append, h1, h2]
  decide

theorem parseElems_strs (l : List String) (hne : l ≠ []) (hb : ∀ x ∈ l, benignStr x)
    (f : Nat) (rest : List Char) :
    parseElems (l.length + f + 1) ((joinQuotedStrings l).data ++ ']' :: rest) =
      some (l.map .str, rest) := by
  induction l generalizing f with
  | nil => cases hne rfl
  | cons x xs ih =>
    have hbx : benignStr x := hb x (by simp)
    cases xs with
    | nil =>
      have hfu : (([x] : List String).length + f + 1) = (f + 1) + 1 := by
        simp only [List.length_singleton]
        omega
      rw [hfu, parseElems]
      rw [joinQS_data_single]
      simp only [List.cons_append, List.append_assoc, List.singleton_append, List.nil_append]
      rw [parseValue_str x (']' :: rest) f hbx]
      have hq : isWsChar ']' = false := by decide
      have hc : (']' = ',') = False := by decide
      simp [skipWs_not_ws _ _ hq, hc]
    | cons y ys =>
      have hfu : ((x :: y :: ys : List String).length + f + 1) =
          ((y :: ys : List String).length + f + 1) + 1 := by
        simp only [List.length_cons]
        omega
      rw [hfu, parseElems]
      rw [joinQS_data_cons]
      simp only [List.cons_append, List.append_assoc]
      have hfu2 : ((y :: ys : List String).length + f + 1) =
          ((y :: ys : List String).length + f) + 1 := rfl
      rw [hfu2, parseValue_str x _ _ hbx]
      have hih := ih (by simp) (fun c hc => hb c (by simp [hc])) f
      simp only [List.length_cons] at hih
      have hq : isWsChar ',' = false := by decide
      simp [skipWs_not_ws _ _ hq, hih]

theorem parseValue_arr_strs (l : List String) (hb : ∀ x ∈ l, benignStr x)
    (f : Nat) (rest : List Char) :
    parseValue (l.length + 2 + f + 1) ('[' :: ((joinQuotedStrings l).data ++ ']' :: rest)) =
      some (.arr (l.map .str), rest) := by
  have h1 : isWsChar '[' = false := by decide
  have h2 : ('[' = quoteChar) = False := by decide
  have h3 : ('[' = lbraceChar) = False := by decide
  rw [parseValue, skipWs_not_ws _ _ h1]
  simp only [h2, h3, if_false, if_pos rfl]
  cases l with
  | nil =>
    have hj : (joinQuotedStrings []).data = [] := by decide
    rw [hj]
    have hq : isWsChar ']' = false := by decide
    simp [skipWs_not_ws _ _ hq]
  | cons x xs =>
    have hsh : ∃ t, (joinQuotedStrings (x :: xs)).data = quoteChar :: t := by
      cases xs with
      | nil => exact ⟨_, joinQS_data_single x⟩
      | cons y ys => exact ⟨_, joinQS_data_cons x y ys⟩
    rcases hsh with ⟨t, ht⟩
    rw [ht, List.cons_append]
    have hq : isWsChar quoteChar = false := by decide
    rw [skipWs_not_ws _ _ hq]
    have h4 : (quoteChar = ']') = False := by decide
    simp only [h4, if_false]
    rw [← List.cons_append, ← ht]
    have hfu : (x :: xs : List String).length + 2 + f =
        (x :: xs : List String).length + (f + 1) + 1 := by omega
    rw [hfu, parseElems_strs (x :: xs) (by simp) hb (f + 1) rest]
    simp

/-! ### Parser lemmas: object members -/

theorem headNotDigit_cons (c : Char) (cs : List Char) (h : c.isDigit = false) :
    headNotDigit (c :: cs) := by
  intro c2 hc2
  simp only [List.head?] at hc2
  cases hc2
  exact h

theorem parseMembers_emit (ms : List MemberSpec) (hne : ms ≠ [])
    (hok : ∀ m ∈ ms, MemberOk m) (f : Nat) (rest : List Char) :
    parseMembers (memberFuel ms + f + 1) (emitMembers ms ++ rbraceChar :: rest) =
      some (ms.map (fun m => (m.key, m.val)), rest) := by
  induction ms generalizing f with
  | nil => cases hne rfl
  | cons m ms1 ih =>
    rcases hok m (by simp) with ⟨hk, hsp, hv⟩
    have hqws : isWsChar quoteChar = false := by decide
    have hcws : isWsChar ':' = false := by decide
    have hrd : rbraceChar.isDigit = false := by decide
    have hrw : isWsChar rbraceChar = false := by decide
    have hcomw : isWsChar ',' = false := by decide
    have hrc : (rbraceChar = ',') = False := by decide
    cases ms1 with
    | nil =>
      have hfu : memberFuel [m] + f + 1 = (m.vfuel + f + 1) + 1 := by
        simp only [memberFuel]
        omega
      rw [hfu, parseMembers]
      rw [show emitMembers [m] = emitMember m from rfl, emitMember]
      simp only [List.cons_append, List.append_assoc]
      have hv1 := hv f (rbraceChar :: rest) (headNotDigit_cons _ _ hrd)
      simp only [skipWs_not_ws _ _ hqws, if_pos rfl, hk,
        skipWs_not_ws _ _ hcws, parseValue_ws m.sp _ _ hsp, hv1,
        skipWs_not_ws _ _ hrw, hrc, if_false, strMk_data, List.map]
      simp
    | cons m2 ms2 =>
      have hfu : memberFuel (m :: m2 :: ms2) + f + 1 =
          (m.vfuel + (memberFuel (m2 :: ms2) + f) + 1) + 1 := by
        simp only [memberFuel]
        omega
      rw [hfu, parseMembers]
      rw [show emitMembers (m :: m2 :: ms2) =
        emitMember m ++ ',' :: emitMembers (m2 :: ms2) from rfl, emitMember]
      simp only [List.cons_append, List.append_assoc]
      have hv1 := hv (memberFuel (m2 :: ms2) + f)
        (',' :: (emitMembers (m2 :: ms2) ++ rbraceChar :: rest))
        (headNotDigit_cons _ _ (by decide))
      have hih := ih (by simp) (fun x hx => hok x (by simp [hx])) (m.vfuel + f)
      have hfe : memberFuel (m2 :: ms2) + (m.vfuel + f) + 1 =
          m.vfuel + (memberFuel (m2 :: ms2) + f) + 1 := by omega
      rw [hfe] at hih
      simp only [skipWs_not_ws _ _ hqws, if_pos rfl, hk,
        skipWs_not_ws _ _ hcws, parseValue_ws m.sp _ _ hsp, hv1,
        skipWs_not_ws _ _ hcomw, hih, strMk_data, List.map]
      simp

/-! ### Parser lemmas: whole objects -/

theorem memberOk_str (k v : String) (hk : benignStr k) (hv : benignStr v) :
    MemberOk (strMemberSpec k v) := by
  refine ⟨?_, ?_, ?_⟩
  · intro rest
    exact parseStringBody_benign k.data rest hk
  · intro c hc
    simp [strMemberSpec] at hc
  · intro f rest hnd
    show parseValue (1 + f + 1) ((quoteChar :: (v.data ++ [quoteChar])) ++ rest) = _
    rw [List.cons_append, List.append_assoc, List.singleton_append]
    exact parseValue_str v rest (1 + f) hv

theorem parseValue_str_esc (v : String) (rest : List Char) (f : Nat) :
    parseValue (f + 1) (quoteChar :: (escapeChars v.data ++ quoteChar :: rest)) =
      some (.str v, rest) := by
  have hq : isWsChar quoteChar = false := by decide
  simp only [parseValue, skipWs_not_ws _ _ hq, if_pos rfl, parseStringBody_escaped, strMk_data]
  simp

theorem memberOk_esc (k v : String) : MemberOk (escMemberSpec k v) := by
  refine ⟨?_, ?_, ?_⟩
  · intro rest
    exact parseStringBody_escaped k.data rest
  · intro c hc
    simp [escMemberSpec] at hc
  · intro f rest hnd
    show parseValue (1 + f + 1) (quotedLit v ++ rest) = _
    rw [quotedLit, List.cons_append, List.append_assoc, List.singleton_append]
    exact parseValue_str_esc v rest (1 + f)

theorem memberFuel_map_str (mm : List (String × String)) :
    memberFuel (mm.map (fun kv => strMemberSpec kv.1 kv.2)) = 2 * mm.length := by
  induction mm with
  | nil => rfl
  | cons kv tl ih =>
    simp only [List.map_cons, memberFuel, List.length_cons]
    rw [ih]
    simp only [strMemberSpec]
    omega

theorem memberFuel_map_esc (mm : List (String × String)) :
    memberFuel (mm.map (fun kv => escMemberSpec kv.1 kv.2)) = 2 * mm.length := by
  induction mm with
  | nil => rfl
  | cons kv tl ih =>
    simp only [List.map_cons, memberFuel, List.length_cons]
    rw [ih]
    simp only [escMemberSpec]
    omega

theorem joinQP_emit (m : List (String × String)) :
    (joinQuotedPairs m).data = emitMembers (m.map (fun kv => strMemberSpec kv.1 kv.2)) := by
  have h1 : "\"".data = [quoteChar] := by decide
  have h2 : "\":\"".data = [quoteChar, ':', quoteChar] := by decide
  have h3 : ",".data = [','] := by decide
  induction m with
  | nil => rfl
  | cons kv rest ih =>
    cases rest with
    | nil =>
      simp [joinQuotedPairs, emitMembers, emitMember, strMemberSpec,
        String.data_append, h1, h2, List.append_assoc]
      decide
    | cons kv2 rest2 =>
      simp only [List.map_cons, joinQuotedPairs, emitMembers, emitMember, strMemberSpec,
        String.data_append, h1, h2, h3] at ih ⊢
      simp [ih, List.append_assoc]
      decide

theorem serializeMapEntries_emit (m : List (String × String)) :
    serializeMapEntries m = emitMembers (m.map (fun kv => escMemberSpec kv.1 kv.2)) := by
  induction m with
  | nil => rfl
  | cons kv rest ih =>
    cases rest with
    | nil =>
      simp [serializeMapEntries, emitMembers, emitMember, escMemberSpec, quotedLit,
        List.append_assoc]
    | cons kv2 rest2 =>
      simp only [List.map_cons, serializeMapEntries, emitMembers, emitMember, escMemberSpec,
        quotedLit] at ih ⊢
      simp [ih, List.append_assoc]

theorem strMapOfFields_map (mm : List (String × String)) :
    strMapOfFields (mm.map (fun kv => (kv.1, .str kv.2))) = some mm := by
  induction mm with
  | nil => rfl
  | cons kv tl ih => simp [strMapOfFields, ih]

theorem strListOfJson_map (l : List String) :
    strListOfJson (l.map .str) = some l := by
  induction l with
  | nil => rfl
  | cons x tl ih => simp [strListOfJson, ih]

theorem parseValue_obj_pairs (mm : List (String × String))
    (hb : ∀ kv ∈ mm, benignStr kv.1 ∧ benignStr kv.2) (f : Nat) (rest : List Char) :
    parseValue (2 * mm.length + 2 + f + 1)
      (lbraceChar :: ((joinQuotedPairs mm).data ++ rbraceChar :: rest)) =
      some (.obj (mm.map (fun kv => (kv.1, .str kv.2))), rest) := by
  have h1 : isWsChar lbraceChar = false := by decide
  have h2 : (lbraceChar = quoteChar) = False := by decide
  rw [parseValue, skipWs_not_ws _ _ h1]
  simp only [h2, if_false, if_pos rfl]
  cases mm with
  | nil =>
    have hj : (joinQuotedPairs []).data = [] := by decide
    rw [hj]
    have hq : isWsChar rbraceChar = false := by decide
    simp [skipWs_not_ws _ _ hq]
  | cons kv mtl =>
    have hqws : isWsChar quoteChar = false := by decide
    have hsh : ∃ t, (joinQuotedPairs (kv :: mtl)).data = quoteChar :: t := by
      rw [joinQP_emit]
      cases mtl <;> exact ⟨_, rfl⟩
    rcases hsh with ⟨t, ht⟩
    rw [ht, List.cons_append, skipWs_not_ws _ _ hqws]
    have h4 : (quoteChar = rbraceChar) = False := by decide
    simp only [h4, if_false]
    rw [← List.cons_append, ← ht, joinQP_emit]
    have hmf := memberFuel_map_str (kv :: mtl)
    have hfu : 2 * (kv :: mtl : List (String × String)).length + 2 + f =
        memberFuel ((kv :: mtl).map (fun kv => strMemberSpec kv.1 kv.2)) + (f + 1) + 1 := by
      rw [hmf]
      omega
    rw [hfu, parseMembers_emit _ (by simp) ?hok (f + 1) rest]
    case hok =>
      intro x hx
      rcases List.mem_map.1 hx with ⟨p, hp, hpe⟩
      rcases hb p hp with ⟨hb1, hb2⟩
      rw [← hpe]
      exact memberOk_str p.1 p.2 hb1 hb2
    simp [List.map_map, strMemberSpec]

theorem parseStringObject_serializeStringMap (mm : List (String × String)) :
    parseStringObject (serializeStringMap mm) = .ok mm := by
  cases mm with
  | nil => decide
  | cons kv mtl =>
    unfold parseStringObject jsonLoad
    have hdata : (serializeStringMap (kv :: mtl)).data =
        lbraceChar :: (serializeMapEntries (kv :: mtl) ++ [rbraceChar]) := rfl
    rw [hdata]
    have h1 : isWsChar lbraceChar = false := by decide
    have h2 : (lbraceChar = quoteChar) = False := by decide
    have hlen : (lbraceChar :: (serializeMapEntries (kv :: mtl) ++ [rbraceChar])).length + 1 =
        ((serializeMapEntries (kv :: mtl)).length + 2) + 1 := by
      simp
    rw [hlen, parseValue, skipWs_not_ws _ _ h1]
    simp only [h2, if_false, if_pos rfl]
    have hqws : isWsChar quoteChar = false := by decide
    have hsh : ∃ t, serializeMapEntries (kv :: mtl) = quoteChar :: t := by
      rw [serializeMapEntries_emit]
      cases mtl <;> exact ⟨_, rfl⟩
    rcases hsh with ⟨t, ht⟩
    rw [ht, List.cons_append, skipWs_not_ws _ _ hqws]
    have h4 : (quoteChar = rbraceChar) = False := by decide
    simp only [h4, if_false]
    rw [← List.cons_append, ← ht, serializeMapEntries_emit]
    have hmf := memberFuel_map_esc (kv :: mtl)
    have helen : 2 * (kv :: mtl : List (String × String)).length ≤
        (serializeMapEntries (kv :: mtl)).length + 1 := by
      clear ht hmf
      induction (kv :: mtl : List (String × String)) with
      | nil => simp
      | cons a tl2 ih =>
        cases tl2 with
        | nil =>
          have hq1 : 2 ≤ (quotedLit a.1).length := by simp [quotedLit]
          have hq2 : 2 ≤ (quotedLit a.2).length := by simp [quotedLit]
          simp only [serializeMapEntries, List.length_append, List.length_cons,
            List.length_nil]
          omega
        | cons b tl3 =>
          simp only [serializeMapEntries, List.length_append, List.length_cons] at ih ⊢
          have hq1 : 2 ≤ (quotedLit a.1).length := by simp [quotedLit]
          omega
    have hlen2 : (serializeMapEntries (kv :: mtl)).length =
        (emitMembers ((kv :: mtl).map (fun kv => escMemberSpec kv.1 kv.2))).length := by
      rw [serializeMapEntries_emit]
    rw [hlen2] at helen
    have hfu : (emitMembers ((kv :: mtl).map (fun kv => escMemberSpec kv.1 kv.2))).length + 2 =
        memberFuel ((kv :: mtl).map (fun kv => escMemberSpec kv.1 kv.2)) +
          ((emitMembers ((kv :: mtl).map (fun kv => escMemberSpec kv.1 kv.2))).length + 1 -
            2 * (kv :: mtl : List (String × String)).length) + 1 := by
      rw [hmf]
      omega
    rw [hfu, parseMembers_emit _ (by simp) ?hok _ []]
    case hok =>
      intro x hx
      rcases List.mem_map.1 hx with ⟨p, hp, hpe⟩
      rw [← hpe]
      exact memberOk_esc p.1 p.2
    have hmap : ((kv :: mtl).map (fun kv => escMemberSpec kv.1 kv.2)).map
        (fun m => (m.key, m.val)) = (kv :: mtl).map (fun kv => (kv.1, Json.str kv.2)) := by
      simp [List.map_map, escMemberSpec]
    rw [hmap]
    have hsw : skipWs ([] : List Char) = [] := rfl
    have hsm := strMapOfFields_map (kv :: mtl)
    simp only [List.map_cons] at hsm
    simp [hsw, Json.getStringMap, hsm]

/-! ### The serialized record, reparsed -/

theorem serialize_data_eq (d : StandaloneData) :
    (serializeStandaloneData d).data =
      lbraceChar :: (emitMembers (recordSpecs d) ++ [rbraceChar]) := by
  have hA : "\x7b".data = [lbraceChar] := by decide
  have hB : "\"".data = [quoteChar] := by decide
  have hC : "\":".data = [quoteChar, ':'] := by decide
  have hD : "\":\"".data = [quoteChar, ':', quoteChar] := by decide
  have hE : ",".data = [','] := by decide
  have hF : "\": [".data = [quoteChar, ':', ' ', '['] := by decide
  have hG : "]".data = [']'] := by decide
  have hH : "\": \x7b".data = [quoteChar, ':', ' ', lbraceChar] := by decide
  have hI : "\x7d".data = [rbraceChar] := by decide
  rcases d with ⟨v, n, g, p, c, pl⟩
  cases p <;> cases c <;>
    simp [serializeStandaloneData, recordSpecs, emitMembers, emitMember, strMemberSpec,
      String.data_append, hA, hB, hC, hD, hE, hF, hG, hH, hI, List.append_assoc] <;>
    decide


/-! ### Length bounds on the serialized members, for the parse fuel -/

theorem emitMember_length (m : MemberSpec) :
    (emitMember m).length = m.kchars.length + m.sp.length + m.vchars.length + 3 := by
  simp only [emitMember, List.length_cons, List.length_append]
  omega

theorem memberFuel_le_emit (ms : List MemberSpec)
    (h : ∀ m ∈ ms, m.vfuel + 1 ≤ (emitMember m).length) :
    memberFuel ms ≤ (emitMembers ms).length + 1 := by
  induction ms with
  | nil => simp [memberFuel, emitMembers]
  | cons m tl ih =>
    cases tl with
    | nil =>
      have h1 := h m (by simp)
      simp only [memberFuel, emitMembers]
      omega
    | cons m2 tl2 =>
      have h1 := h m (by simp)
      have h2 := ih (fun x hx => h x (by simp [hx]))
      simp only [memberFuel, emitMembers, List.length_append, List.length_cons] at h2 ⊢
      omega

theorem joinQS_length (l : List String) :
    l.length ≤ (joinQuotedStrings l).data.length + 1 := by
  induction l with
  | nil => simp
  | cons x tl ih =>
    cases tl with
    | nil => simp [joinQS_data_single]
    | cons y ys =>
      rw [joinQS_data_cons]
      simp only [List.length_cons, List.length_append] at ih ⊢
      omega

theorem joinQP_length (m : List (String × String)) :
    2 * m.length ≤ (joinQuotedPairs m).data.length + 1 := by
  rw [joinQP_emit]
  have hle := memberFuel_le_emit (m.map fun kv => strMemberSpec kv.1 kv.2) ?_
  · rw [memberFuel_map_str] at hle
    omega
  · intro x hx
    rcases List.mem_map.1 hx with ⟨p2, hp2, hpe⟩
    rw [← hpe, emitMember_length]
    simp [strMemberSpec]

theorem recordSpecs_ne (d : StandaloneData) : recordSpecs d ≠ [] := by
  rcases d with ⟨v, n, g, p, c, pl⟩
  cases p <;> cases c <;> simp [recordSpecs]

theorem recordSpecs_head_quote (d : StandaloneData) :
    ∃ t, emitMembers (recordSpecs d) = quoteChar :: t := by
  rcases d with ⟨v, n, g, p, c, pl⟩
  cases p <;> cases c <;> exact ⟨_, rfl⟩

theorem recordSpecs_fuel (d : StandaloneData) :
    memberFuel (recordSpecs d) ≤ (emitMembers (recordSpecs d)).length + 1 := by
  rcases d with ⟨v, n, g, p, c, pl⟩
  have h1 := joinQS_length pl
  have h2 := joinQP_length (p.getD [])
  have h3 := joinQS_length (c.getD [])
  cases p <;> cases c <;>
    simp only [Option.getD] at h2 h3 <;>
    simp only [recordSpecs, memberFuel, emitMembers, emitMember, strMemberSpec,
      List.length_cons, List.length_append, List.length_map, List.length_nil,
      List.append_nil, List.nil_append, List.cons_append] at h1 h2 h3 ⊢ <;>
    omega

theorem recordSpecs_ok (d : StandaloneData) (hv : d.version = 1) (hb : benignData d) :
    ∀ m ∈ recordSpecs d, MemberOk m := by
  obtain ⟨hbn, hbg, hbp, hbpr, hbc⟩ := hb
  have hk1 : ∀ c ∈ StandaloneDataKeys.version.data,
      c ≠ quoteChar ∧ c ≠ backslashChar := by decide
  have hk4 : ∀ c ∈ StandaloneDataKeys.payload_types.data,
      c ≠ quoteChar ∧ c ≠ backslashChar := by decide
  have hk5 : ∀ c ∈ StandaloneDataKeys.artifact_provides.data,
      c ≠ quoteChar ∧ c ≠ backslashChar := by decide
  have hk6 : ∀ c ∈ StandaloneDataKeys.artifact_clears_provides.data,
      c ≠ quoteChar ∧ c ≠ backslashChar := by decide
  have hsp0 : ∀ c ∈ ([] : List Char), isWsChar c = true := by decide
  have hsp1 : ∀ c ∈ ([' '] : List Char), isWsChar c = true := by decide
  intro m hm
  rw [recordSpecs] at hm
  rcases List.mem_append.1 hm with hm1 | hmc
  rcases List.mem_append.1 hm1 with hm0 | hmp
  · simp only [List.mem_cons, List.not_mem_nil, or_false] at hm0
    rcases hm0 with rfl | rfl | rfl | rfl
    · refine ⟨fun rest => parseStringBody_benign _ rest hk1, hsp0, ?_⟩
      intro f rest hnd
      rw [hv]
      have h1 : (toString (1 : Int)).data = ['1'] := by decide
      show parseValue (1 + f + 1) ((toString (1 : Int)).data ++ rest) = some (.num 1, rest)
      rw [h1, List.singleton_append]
      exact parseValue_one rest (1 + f) hnd
    · exact memberOk_str _ _ (by decide) hbn
    · exact memberOk_str _ _ (by decide) hbg
    · refine ⟨fun rest => parseStringBody_benign _ rest hk4, hsp1, ?_⟩
      intro f rest hnd
      show parseValue (d.payload_types.length + 2 + f + 1)
        (('[' :: ((joinQuotedStrings d.payload_types).data ++ [']'])) ++ rest) = _
      rw [List.cons_append, List.append_assoc, List.singleton_append]
      exact parseValue_arr_strs d.payload_types hbp f rest
  · rcases hpv : d.artifact_provides with _ | mm
    · rw [hpv] at hmp
      simp at hmp
    · rw [hpv] at hmp hbpr
      simp only [Option.getD] at hbpr
      simp only [List.mem_singleton] at hmp
      subst hmp
      refine ⟨fun rest => parseStringBody_benign _ rest hk5, hsp1, ?_⟩
      intro f rest hnd
      show parseValue (2 * mm.length + 2 + f + 1)
        ((lbraceChar :: ((joinQuotedPairs mm).data ++ [rbraceChar])) ++ rest) = _
      rw [List.cons_append, List.append_assoc, List.singleton_append]
      exact parseValue_obj_pairs mm hbpr f rest
  · rcases hcv : d.artifact_clears_provides with _ | l
    · rw [hcv] at hmc
      simp at hmc
    · rw [hcv] at hmc hbc
      simp only [Option.getD] at hbc
      simp only [List.mem_singleton] at hmc
      subst hmc
      refine ⟨fun rest => parseStringBody_benign _ rest hk6, hsp1, ?_⟩
      intro f rest hnd
      show parseValue (l.length + 2 + f + 1)
        (('[' :: ((joinQuotedStrings l).data ++ [']'])) ++ rest) = _
      rw [List.cons_append, List.append_assoc, List.singleton_append]
      exact parseValue_arr_strs l hbc f rest

/-- `json::Load` parses the record `SaveStandaloneData` wrote back to the
expected JSON object, when every string field is benign. -/
theorem jsonLoad_serialize (d : StandaloneData) (hv : d.version = 1) (hb : benignData d) :
    jsonLoad (serializeStandaloneData d) = .ok (recordJson d) := by
  unfold jsonLoad
  rw [serialize_data_eq]
  have h1 : isWsChar lbraceChar = false := by decide
  have h2 : (lbraceChar = quoteChar) = False := by decide
  have hlen : (lbraceChar :: (emitMembers (recordSpecs d) ++ [rbraceChar])).length + 1 =
      ((emitMembers (recordSpecs d)).length + 2) + 1 := by
    simp
  rw [hlen, parseValue, skipWs_not_ws _ _ h1]
  simp only [h2, if_false, if_pos rfl]
  have hqws : isWsChar quoteChar = false := by decide
  obtain ⟨t, ht⟩ := recordSpecs_head_quote d
  rw [ht, List.cons_append, skipWs_not_ws _ _ hqws]
  have h4 : (quoteChar = rbraceChar) = False := by decide
  simp only [h4, if_false]
  rw [← List.cons_append, ← ht]
  have hmf := recordSpecs_fuel d
  have hfu : (emitMembers (recordSpecs d)).length + 2 =
      memberFuel (recordSpecs d) +
        ((emitMembers (recordSpecs d)).length + 1 - memberFuel (recordSpecs d)) + 1 := by
    omega
  rw [hfu, parseMembers_emit _ (recordSpecs_ne d) (recordSpecs_ok d hv hb) _ []]
  simp [recordJson, skipWs]

/-- Field extraction recovers the record from the reparsed JSON object. -/
theorem standaloneDataFromJson_recordJson (d : StandaloneData)
    (hv : d.version = 1) (hn : d.artifact_name ≠ "") (hp : d.payload_types.length = 1) :
    standaloneDataFromJson (recordJson d) = .ok d := by
  rcases d with ⟨v, n, g, p, c, pl⟩
  obtain rfl : v = 1 := hv
  replace hn : n ≠ "" := hn
  rcases pl with _ | ⟨t, tl⟩
  · simp at hp
  rcases tl with _ | ⟨t2, tl2⟩
  case cons.cons => simp at hp
  cases p <;> cases c <;>
    simp [standaloneDataFromJson, recordJson, recordSpecs, strMemberSpec, GetEntry,
      Json.Get, List.find?, StandaloneDataKeys.version, StandaloneDataKeys.artifact_name,
      StandaloneDataKeys.artifact_group, StandaloneDataKeys.artifact_provides,
      StandaloneDataKeys.artifact_clears_provides, StandaloneDataKeys.payload_types,
      Json.getInt, Json.getString, Json.getStringList, Json.getStringMap,
      strListOfJson, strMapOfFields_map, strListOfJson_map, standalone_data_version, hn,
      JsonValue.fromJson, JsonValue.defaultVal, jsonValueInt, jsonValueString,
      jsonValueStringList, jsonValueStringMap]

/-! ### Association-list lemmas -/

theorem lookupKV_setEntry_self (m : List (String × String)) (k v : String) :
    lookupKV (setEntry m k v) k = some v := by
  induction m with
  | nil => simp [setEntry, lookupKV]
  | cons kv rest ih =>
    by_cases h : kv.1 = k
    · simp [setEntry, h, lookupKV]
    · simp [setEntry, h, lookupKV, ih]

theorem lookupKV_setEntry_ne (m : List (String × String)) (k v k' : String) (h : k' ≠ k) :
    lookupKV (setEntry m k v) k' = lookupKV m k' := by
  induction m with
  | nil => simp [setEntry, lookupKV, Ne.symm h]
  | cons kv rest ih =>
    by_cases h1 : kv.1 = k
    · subst h1
      simp [setEntry, lookupKV, Ne.symm h]
    · by_cases h2 : kv.1 = k'
      · simp [setEntry, h1, lookupKV, h2, h]
      · simp [setEntry, h1, lookupKV, h2, ih]

theorem lookupKV_eraseEntry_self (m : List (String × String)) (k : String) :
    lookupKV (eraseEntry m k) k = none := by
  induction m with
  | nil => simp [eraseEntry, lookupKV]
  | cons kv rest ih =>
    by_cases h : kv.1 = k
    · simp [eraseEntry, h, ih]
    · simp [eraseEntry, lookupKV, h, ih]

theorem lookupKV_eraseEntry_ne (m : List (String × String)) (k k' : String) (h : k' ≠ k) :
    lookupKV (eraseEntry m k) k' = lookupKV m k' := by
  induction m with
  | nil => simp [eraseEntry, lookupKV]
  | cons kv rest ih =>
    by_cases h1 : kv.1 = k
    · subst h1
      simp [eraseEntry, lookupKV, Ne.symm h, ih]
    · by_cases h2 : kv.1 = k'
      · simp [eraseEntry, lookupKV, h1, h2, h, ih]
      · simp [eraseEntry, lookupKV, h1, h2, h, ih]

theorem lookupKV_foldl_not_mem (l : List (String × String)) (base : List (String × String))
    (k : String) (h : k ∉ l.map Prod.fst) :
    lookupKV (l.foldl (fun acc kv => setEntry acc kv.1 kv.2) base) k = lookupKV base k := by
  induction l generalizing base with
  | nil => simp
  | cons a l1 ih =>
    simp only [List.map_cons, List.mem_cons, not_or] at h
    simp only [List.foldl_cons]
    rw [ih _ h.2, lookupKV_setEntry_ne _ _ _ _ h.1]

theorem lookupKV_foldl_mem (l : List (String × String)) (base : List (String × String))
    (k v : String) (hnd : (l.map Prod.fst).Nodup) (h : (k, v) ∈ l) :
    lookupKV (l.foldl (fun acc kv => setEntry acc kv.1 kv.2) base) k = some v := by
  induction l generalizing base with
  | nil => simp at h
  | cons a l1 ih =>
    simp only [List.map_cons, List.nodup_cons] at hnd
    rcases List.mem_cons.1 h with h1 | h1
    · subst h1
      simp only [List.foldl_cons]
      rw [lookupKV_foldl_not_mem _ _ _ hnd.1, lookupKV_setEntry_self]
    · simp only [List.foldl_cons]
      exact ih _ hnd.2 h1

/-! ### Success shape of CommitArtifactData -/

theorem CommitArtifactData_ok (env : Env) (store : Store) (n g : String)
    (p : Option (List (String × String))) (c : Option (List String))
    (txn : Store → Store) (st : Store)
    (h : CommitArtifactData env store n g p c txn = .ok st) :
    ∃ merged : List (String × String),
      st = txn (setEntry (setEntry (setEntry store artifact_name_key n)
        artifact_group_key g) artifact_provides_key (serializeStringMap merged)) ∧
      (((p.getD []).map Prod.fst).Nodup →
        ∀ kv ∈ p.getD [], lookupKV merged kv.1 = some kv.2) := by
  unfold CommitArtifactData at h
  rcases hf : env.db.commitTxnFault with _ | e
  · rw [hf] at h
    simp only at h
    rcases hEx : (if (lookupKV store artifact_provides_key).getD "" = "" then
        (.ok [] : Except ErrData (List (String × String)))
      else parseStringObject ((lookupKV store artifact_provides_key).getD "")) with e1 | existing
    · rw [hEx] at h
      cases h
    · rw [hEx] at h
      simp only [Except.ok.injEq] at h
      refine ⟨(p.getD []).foldl (fun acc kv => setEntry acc kv.1 kv.2)
        (existing.filter (fun kv => !(matchesAnyPattern (c.getD []) kv.1))), h.symm, ?_⟩
      intro hnd kv hkv
      have := lookupKV_foldl_mem (p.getD [])
        (existing.filter (fun kv => !(matchesAnyPattern (c.getD []) kv.1))) kv.1 kv.2 hnd
      exact this hkv
  · rw [hf] at h
    cases h

/-! ### LoadStandaloneData implies the record key is present -/

theorem LoadStandaloneData_key_present (env : Env) (store : Store) (d : StandaloneData)
    (h : LoadStandaloneData env store = .ok (some d)) :
    ∃ s, lookupKV store standalone_state_key = some s := by
  unfold LoadStandaloneData dbRead at h
  rcases hf : env.db.readFault with _ | e
  · rw [hf] at h
    rcases hl : lookupKV store standalone_state_key with _ | s
    · rw [hl] at h
      simp at h
    · exact ⟨s, rfl⟩
  · rw [hf] at h
    simp only at h
    split at h <;> simp_all

/-! ### Claim C5: mutual exclusion of Install -/

/-- C5: for every store that already contains a valid standalone record,
`Install` returns `FailedNothingDone` with an operation-in-progress error,
triggers no external event (in particular no update-module verb), and leaves
the store unmodified. -/
theorem C5_install_mutual_exclusion (env : Env) (store : Store) (src : String)
    (data : StandaloneData) (h : LoadStandaloneData env store = .ok (some data)) :
    Install env store src =
      ⟨.FailedNothingDone,
        some ⟨.opInProgress, "Update already in progress. Please commit or roll back first"⟩,
        store, [], []⟩ := by
  unfold Install
  rw [h]

theorem C5_witness :
    LoadStandaloneData envOk sampleStore = .ok (some sampleData) ∧
    Install envOk sampleStore "/tmp/a.mender" =
      ⟨.FailedNothingDone,
        some ⟨.opInProgress, "Update already in progress. Please commit or roll back first"⟩,
        sampleStore, [], []⟩ :=
  ⟨by decide,
    C5_install_mutual_exclusion envOk sampleStore "/tmp/a.mender" sampleData (by decide)⟩

/-! ### Claim C8: rejection of http/https sources -/

/-- C8 (amended): for every source beginning with `http://` or `https://`,
on a store with no update in progress, `Install` returns
`FailedNothingDone` with the not-supported error without opening any file,
invoking the parser, touching the update module, or touching the store. -/
theorem C8_http_source_rejected (env : Env) (store : Store) (src : String)
    (h0 : LoadStandaloneData env store = .ok none)
    (h1 : startsWithStr src "http://" = true ∨ startsWithStr src "https://" = true) :
    Install env store src =
      ⟨.FailedNothingDone, some ⟨.notSupported, "HTTP not supported yet"⟩, store, [], []⟩ := by
  unfold Install
  rw [h0]
  rcases h1 with h | h <;> simp [h]

theorem C8_witness :
    LoadStandaloneData envOk [] = .ok none ∧
    (startsWithStr "http://x.mender" "http://" = true ∨
      startsWithStr "http://x.mender" "https://" = true) ∧
    Install envOk [] "http://x.mender" =
      ⟨.FailedNothingDone, some ⟨.notSupported, "HTTP not supported yet"⟩, [], [], []⟩ :=
  ⟨by decide, Or.inl (by decide),
    C8_http_source_rejected envOk [] "http://x.mender" (by decide) (Or.inl (by decide))⟩

/-- C8 counterexample: with an update already in progress, a `http://` source
still yields `FailedNothingDone`, but with the operation-in-progress error,
not the not-supported error the claim promises for every such source. -/
theorem C8_counterexample :
    (startsWithStr "http://x.mender" "http://" = true) ∧
    (Install envOk sampleStore "http://x.mender").err =
      some ⟨.opInProgress, "Update already in progress. Please commit or roll back first"⟩ ∧
    (Install envOk sampleStore "http://x.mender").err ≠
      some ⟨.notSupported, "HTTP not supported yet"⟩ := by
  refine ⟨by decide, by decide, by decide⟩

/-! ### Claim C9: optional ArtifactGroup (code bug in GetEntry) -/

/-- C9: the code FAILS this claim.  A stored record that omits the optional
`ArtifactGroup` field makes `LoadStandaloneData` return a key error instead
of succeeding with an empty `artifact_group`: `GetEntry` compares the error
code with `!=` against `KeyError`, so with `missing_ok` the absent-key case
falls into the error branch.  This theorem evaluates the code at the failing
input. -/
theorem C9_missing_group_rejected :
    LoadStandaloneData envOk c9Store =
      .error ⟨.jsonKeyError,
        "Key `ArtifactGroup` not found: Could not get `ArtifactGroup` from state data"⟩ := by
  decide

/-! ### Claim C10: failed SupportsRollback query maps to NoRollback -/

/-- C10: when the `SupportsRollback` query fails, `DoRollback` returns
`NoRollback` carrying the query error (not `RollbackFailed`); top-level
`Rollback` then returns without clearing state, and
`InstallationFailureHandler` takes the `FailedAndNoRollback` path and
commits a broken artifact. -/
theorem C10_rollback_query_failure (env : Env) (data : StandaloneData) (store : Store)
    (e : ErrData) (h : env.module.supportsRollback = .error e) :
    DoRollback env data store = ⟨.NoRollback, some e, store, [], [.supportsRollback]⟩ ∧
    (∀ d, LoadStandaloneData env store = .ok (some d) →
      Rollback env store = ⟨.NoRollback, some e, store, [], [.supportsRollback]⟩) ∧
    (∀ st, CommitBrokenArtifact env data store = .ok st →
      (InstallationFailureHandler env data store).store = st) ∧
    (env.module.artifactFailure = none → env.module.cleanup = none →
      ∀ st, CommitBrokenArtifact env data store = .ok st →
      InstallationFailureHandler env data store =
        ⟨.FailedAndNoRollback, some e, st, [st],
          [.supportsRollback, .artifactFailure, .cleanup]⟩) := by
  have hdo : ∀ (dd : StandaloneData) (stt : Store), DoRollback env dd stt =
      ⟨.NoRollback, some e, stt, [], [.supportsRollback]⟩ := by
    intro dd stt
    unfold DoRollback; rw [h]
  refine ⟨hdo data store, ?_, ?_, ?_⟩
  · intro d hload
    simp only [Rollback, hload, hdo]
    simp
  · intro st hcba
    simp only [InstallationFailureHandler, hdo]
    rcases haf : env.module.artifactFailure with _ | ea <;>
      rcases hcl : env.module.cleanup with _ | ec <;>
      simp [haf, hcl, hcba]
  · intro haf hcl st hcba
    simp only [InstallationFailureHandler, hdo, haf, hcl]
    simp [hcba, Error.FollowedBy]

theorem C10_witness :
    envRbErr.module.supportsRollback = .error ⟨.moduleError, "query failed"⟩ ∧
    DoRollback envRbErr sampleData sampleStore =
      ⟨.NoRollback, some ⟨.moduleError, "query failed"⟩, sampleStore, [],
        [.supportsRollback]⟩ :=
  ⟨rfl, (C10_rollback_query_failure envRbErr sampleData sampleStore
    ⟨.moduleError, "query failed"⟩ rfl).1⟩

/-! ### Claim C4: LoadStandaloneData schema validation -/

/-- C4 (amended): with the store readable, an absent `standalone_state_key`
yields "no update in progress"; for a stored record whose required fields
deserialize, validation errors are reported with this precedence: first the
unsupported-version error when `version` differs from the well-known
constant, then the database-value error when `artifact_name` is empty, then
the database-value error when `payload_types` is empty, then the
unsupported-operation error when it has two or more entries; otherwise the
load succeeds. -/
theorem C4_load_validation (env : Env) (store : Store) (hf : env.db.readFault = none) :
    (lookupKV store standalone_state_key = none → LoadStandaloneData env store = .ok none) ∧
    (∀ (s : String) (j : Json) (v : Int) (name group : String)
        (pjs : List Json) (pts : List String),
      lookupKV store standalone_state_key = some s →
      jsonLoad s = .ok j →
      j.Get StandaloneDataKeys.version = .ok (.num v) →
      j.Get StandaloneDataKeys.artifact_name = .ok (.str name) →
      j.Get StandaloneDataKeys.artifact_group = .ok (.str group) →
      j.Get StandaloneDataKeys.payload_types = .ok (.arr pjs) →
      strListOfJson pjs = some pts →
      errCodeOf (LoadStandaloneData env store) =
        (if v ≠ standalone_data_version then some .notSupported
         else if name = "" then some .dbValueError
         else if pts.length = 0 then some .dbValueError
         else if pts.length ≥ 2 then some .notSupported
         else none)) := by
  constructor
  · intro habs
    simp only [LoadStandaloneData, dbRead, hf, habs]
    decide
  · intro s j v name group pjs pts hs hj hv hn hg hp hsl
    simp only [LoadStandaloneData, dbRead, hf, hs, hj]
    simp only [standaloneDataFromJson, GetEntry, hv, hn, hg, hp]
    simp only [jsonValueInt, jsonValueString, jsonValueStringList,
      Json.getInt, Json.getString, Json.getStringList, hsl]
    split_ifs <;> simp_all [errCodeOf]

/-- C4 counterexample: a stored record with the wrong version AND an empty
`artifact_name` fails with the unsupported-version error, not with the
database-value error the claim promises whenever `artifact_name` is empty:
validation checks the version first. -/
theorem C4_counterexample :
    lookupKV c4Store standalone_state_key = some c4RecordStr ∧
    jsonLoad c4RecordStr = .ok c4Json ∧
    c4Json.Get StandaloneDataKeys.artifact_name = .ok (.str "") ∧
    errCodeOf (LoadStandaloneData envOk c4Store) = some .notSupported ∧
    errCodeOf (LoadStandaloneData envOk c4Store) ≠ some .dbValueError :=
  ⟨rfl, by rfl, rfl, by decide, by decide⟩

theorem C4_witness :
    (lookupKV c4Store standalone_state_key = some c4RecordStr ∧
      jsonLoad c4RecordStr = .ok c4Json ∧
      strListOfJson [.str "t"] = some ["t"]) ∧
    errCodeOf (LoadStandaloneData envOk c4Store) =
      (if (2 : Int) ≠ standalone_data_version then some .notSupported
       else if "" = "" then some .dbValueError
       else if ["t"].length = 0 then some .dbValueError
       else if ["t"].length ≥ 2 then some .notSupported
       else none) :=
  ⟨⟨rfl, by rfl, rfl⟩,
    (C4_load_validation envOk c4Store rfl).2 c4RecordStr c4Json 2 "" "" [.str "t"] ["t"]
      rfl (by rfl) rfl rfl rfl rfl rfl⟩


/-! ### Claim C6: Rollback control flow -/

/-- C6: on a store with a valid standalone record: when `DoRollback` yields
`NoRollback`, `Rollback` returns it unchanged, the record stays present, and
`Cleanup` is not invoked; otherwise `Cleanup` always runs and its failure
demotes the result to `FailedAndRollbackFailed`; then the record is removed
when the (possibly demoted) result is `RolledBack` and `CommitBrokenArtifact`
runs otherwise, and an error in this finalization step demotes the result to
`RollbackFailed`. -/
theorem C6_rollback_flow (env : Env) (store : Store) (data : StandaloneData)
    (hload : LoadStandaloneData env store = .ok (some data)) :
    ((DoRollback env data store).result = .NoRollback →
      Rollback env store = DoRollback env data store ∧
      (Rollback env store).store = store ∧
      (∃ s, lookupKV (Rollback env store).store standalone_state_key = some s) ∧
      Event.cleanup ∉ (Rollback env store).events) ∧
    ((DoRollback env data store).result ≠ .NoRollback →
      Event.cleanup ∈ (Rollback env store).events) ∧
    (∀ ec st, (DoRollback env data store).result ≠ .NoRollback →
      env.module.cleanup = some ec →
      CommitBrokenArtifact env data store = .ok st →
      (Rollback env store).result = .FailedAndRollbackFailed ∧
      (Rollback env store).store = st) ∧
    ((DoRollback env data store).result = .RolledBack →
      env.module.cleanup = none →
      env.db.removeFault = none →
      (Rollback env store).result = .RolledBack ∧
      lookupKV (Rollback env store).store standalone_state_key = none) ∧
    (∀ st, (DoRollback env data store).result = .RollbackFailed →
      CommitBrokenArtifact env data store = .ok st →
      (Rollback env store).store = st) ∧
    (∀ er, (DoRollback env data store).result = .RolledBack →
      env.module.cleanup = none →
      env.db.removeFault = some er →
      (Rollback env store).result = .RollbackFailed) ∧
    (∀ er, (DoRollback env data store).result ≠ .NoRollback →
      ((DoRollback env data store).result = .RollbackFailed ∨ env.module.cleanup ≠ none) →
      CommitBrokenArtifact env data store = .error er →
      (Rollback env store).result = .RollbackFailed) := by
  have hkey := LoadStandaloneData_key_present env store data hload
  simp only [Rollback, hload]
  unfold DoRollback
  rcases hsr : env.module.supportsRollback with e | b
  · simp [hsr, hkey]
  · cases b
    · simp [hsr, hkey]
    · rcases har : env.module.artifactRollback with _ | ea <;>
        rcases hcl : env.module.cleanup with _ | ec <;>
        rcases hrf : env.db.removeFault with _ | er2 <;>
        rcases hcb : CommitBrokenArtifact env data store with e2 | st2 <;>
        simp [hsr, har, hcl, hrf, hcb, RemoveStandaloneData, lookupKV_eraseEntry_self]

theorem C6_witness :
    LoadStandaloneData envOk sampleStore = .ok (some sampleData) ∧
    (DoRollback envOk sampleData sampleStore).result = .RolledBack ∧
    (Rollback envOk sampleStore).result = .RolledBack ∧
    lookupKV (Rollback envOk sampleStore).store standalone_state_key = none :=
  ⟨by decide, by decide,
    (C6_rollback_flow envOk sampleStore sampleData (by decide)).2.2.2.1 (by decide) rfl rfl⟩

/-! ### Claim C1: DoCommit commits provenance and removes the record atomically -/

/-- C1: whenever `DoCommit` returns `Committed` with no error, the final
store holds the new provenance (`artifact_name`, `artifact_group`, every
provides entry) and no `standalone_state_key`, and the run made exactly one
atomic store transition, to that final store: provenance write and record
removal happen in the same transaction, with no intermediate state. -/
theorem C1_docommit_atomic_commit (env : Env) (data : StandaloneData) (store : Store)
    (hres : (DoCommit env data store).result = .Committed)
    (herr : (DoCommit env data store).err = none) :
    lookupKV (DoCommit env data store).store artifact_name_key = some data.artifact_name ∧
    lookupKV (DoCommit env data store).store artifact_group_key = some data.artifact_group ∧
    lookupKV (DoCommit env data store).store standalone_state_key = none ∧
    (DoCommit env data store).storeTrace = [(DoCommit env data store).store] ∧
    (∀ m, data.artifact_provides = some m → (m.map Prod.fst).Nodup →
      ∀ kv ∈ m, lookupStoredProvides (DoCommit env data store).store kv.1 = some kv.2) := by
  rcases hac : env.module.artifactCommit with _ | e
  · rcases hcl : env.module.cleanup with _ | ec
    · rcases hcd : CommitArtifactData env store data.artifact_name data.artifact_group
          data.artifact_provides data.artifact_clears_provides
          (fun st => eraseEntry st standalone_state_key) with e2 | st
      · simp only [DoCommit, hac, hcl, hcd] at hres
        simp at hres
      · have hDC : DoCommit env data store =
            ⟨.Committed, none, st, [st], [.artifactCommit, .cleanup]⟩ := by
          simp only [DoCommit, hac, hcl, hcd]
        rw [hDC]
        rcases CommitArtifactData_ok env store data.artifact_name data.artifact_group
          data.artifact_provides data.artifact_clears_provides _ st hcd with ⟨merged, hst, hprov⟩
        subst hst
        refine ⟨?_, ?_, ?_, rfl, ?_⟩
        · rw [lookupKV_eraseEntry_ne _ _ _ (by decide),
            lookupKV_setEntry_ne _ _ _ _ (by decide),
            lookupKV_setEntry_ne _ _ _ _ (by decide), lookupKV_setEntry_self]
        · rw [lookupKV_eraseEntry_ne _ _ _ (by decide),
            lookupKV_setEntry_ne _ _ _ _ (by decide), lookupKV_setEntry_self]
        · rw [lookupKV_eraseEntry_self]
        · intro m hm hnd kv hkv
          unfold lookupStoredProvides
          rw [lookupKV_eraseEntry_ne _ _ _ (by decide), lookupKV_setEntry_self]
          simp only [parseStringObject_serializeStringMap]
          rw [hm] at hprov
          simp only [Option.getD_some] at hprov
          exact hprov hnd kv hkv
    · rcases hcd : CommitArtifactData env store data.artifact_name data.artifact_group
          data.artifact_provides data.artifact_clears_provides
          (fun st => eraseEntry st standalone_state_key) with e2 | st <;>
      · simp only [DoCommit, hac, hcl, hcd] at hres
        simp at hres
  · have hpre : (DoCommit env data store).result =
        (InstallationFailureHandler env data store).result := by
      simp only [DoCommit, hac, Exec.prepend]
    rw [hpre] at hres
    rcases IFH_result_cases env data store with h | h | h <;> rw [h] at hres <;> cases hres

theorem C1_witness :
    (DoCommit envOk sampleData sampleStore).result = .Committed ∧
    (DoCommit envOk sampleData sampleStore).err = none ∧
    lookupKV (DoCommit envOk sampleData sampleStore).store standalone_state_key = none :=
  ⟨by decide, by decide,
    (C1_docommit_atomic_commit envOk sampleData sampleStore (by decide) (by decide)).2.2.1⟩

/-! ### Claim C2: broken-artifact recording without rollback support -/

/-- C2: when the module reports no rollback support and every subsequent
step succeeds, `InstallationFailureHandler` returns `FailedAndNoRollback`;
the committed provenance's `artifact_name` is the record's name with the
broken suffix appended, the suffixed name is written into the stored
`artifact_provides` mapping's `artifact_name` entry when that mapping is
present, and the `standalone_state_key` entry is removed in the same single
store transaction. -/
theorem C2_broken_artifact_recording (env : Env) (data : StandaloneData) (store : Store)
    (st : Store)
    (hsr : env.module.supportsRollback = .ok false)
    (haf : env.module.artifactFailure = none)
    (hcl : env.module.cleanup = none)
    (hcb : CommitBrokenArtifact env data store = .ok st) :
    InstallationFailureHandler env data store =
      ⟨.FailedAndNoRollback, none, st, [st],
        [.supportsRollback, .artifactFailure, .cleanup]⟩ ∧
    lookupKV st artifact_name_key =
      some (data.artifact_name ++ broken_artifact_name_suffix) ∧
    lookupKV st standalone_state_key = none ∧
    (∀ m, data.artifact_provides = some m → (m.map Prod.fst).Nodup →
      lookupStoredProvides st "artifact_name" =
        some (data.artifact_name ++ broken_artifact_name_suffix)) := by
  have hIFH : InstallationFailureHandler env data store =
      ⟨.FailedAndNoRollback, none, st, [st],
        [.supportsRollback, .artifactFailure, .cleanup]⟩ := by
    unfold InstallationFailureHandler DoRollback
    rw [hsr]
    simp only [haf, hcl]
    simp [hcb]
  unfold CommitBrokenArtifact at hcb
  rcases CommitArtifactData_ok env store (data.artifact_name ++ broken_artifact_name_suffix)
    data.artifact_group
    (data.artifact_provides.map (fun m => setEntry m "artifact_name"
      (data.artifact_name ++ broken_artifact_name_suffix)))
    data.artifact_clears_provides _ st hcb with ⟨merged, hst, hprov⟩
  subst hst
  refine ⟨hIFH, ?_, ?_, ?_⟩
  · rw [lookupKV_eraseEntry_ne _ _ _ (by decide),
      lookupKV_setEntry_ne _ _ _ _ (by decide),
      lookupKV_setEntry_ne _ _ _ _ (by decide), lookupKV_setEntry_self]
  · rw [lookupKV_eraseEntry_self]
  · intro m hm hnd
    unfold lookupStoredProvides
    rw [lookupKV_eraseEntry_ne _ _ _ (by decide), lookupKV_setEntry_self]
    simp only [parseStringObject_serializeStringMap, Option.some.injEq]
    rw [hm] at hprov
    simp at hprov
    exact hprov (setEntry_keys_nodup m _ _ hnd) "artifact_name"
      (data.artifact_name ++ broken_artifact_name_suffix)
      (mem_setEntry_self m "artifact_name" (data.artifact_name ++ broken_artifact_name_suffix))

theorem C2_witness :
    envNR.module.supportsRollback = .ok false ∧
    CommitBrokenArtifact envNR sampleData sampleStore = .ok c2Store ∧
    (InstallationFailureHandler envNR sampleData sampleStore).result =
      .FailedAndNoRollback ∧
    lookupKV c2Store artifact_name_key =
      some (sampleData.artifact_name ++ broken_artifact_name_suffix) :=
  ⟨rfl, by decide,
    by rw [(C2_broken_artifact_recording envNR sampleData sampleStore c2Store
        rfl rfl rfl (by decide)).1],
    (C2_broken_artifact_recording envNR sampleData sampleStore c2Store
        rfl rfl rfl (by decide)).2.1⟩

theorem lookupKV_provides_base_name (nameV groupV : String) :
    lookupKV ((if nameV ≠ "" then [("artifact_name", nameV)] else []) ++
      (if groupV ≠ "" then [("artifact_group", groupV)] else [])) "artifact_name" =
      (if nameV ≠ "" then some nameV else none) := by
  have hgn : ("artifact_group" = "artifact_name") = False := by decide
  by_cases h1 : nameV = "" <;> by_cases h2 : groupV = "" <;>
    simp [h1, h2, lookupKV, hgn]

theorem lookupKV_provides_base_group (nameV groupV : String) :
    lookupKV ((if nameV ≠ "" then [("artifact_name", nameV)] else []) ++
      (if groupV ≠ "" then [("artifact_group", groupV)] else [])) "artifact_group" =
      (if groupV ≠ "" then some groupV else none) := by
  have hng : ("artifact_name" = "artifact_group") = False := by decide
  by_cases h1 : nameV = "" <;> by_cases h2 : groupV = "" <;>
    simp [h1, h2, lookupKV, hng]

/-! ### Claim C7: LoadProvides flattening and failure conditions -/

/-- C7: `LoadProvides` succeeds exactly when the store read succeeds and the
stored `artifact_provides` value, when non-empty, is a well-formed object of
strings; on success the result is a flat mapping holding every entry of the
deserialized `artifact_provides` object, plus `artifact_name` and
`artifact_group` from their store keys, each omitted when its stored value
is empty (absent store keys are read as empty, not as errors). -/
theorem C7_load_provides (env : Env) (store : Store) :
    ((LoadProvides env store).isOk = true ↔
      (env.db.readFault = none ∧
        ((lookupKV store artifact_provides_key).getD "" = "" ∨
          ∃ j children, jsonLoad ((lookupKV store artifact_provides_key).getD "") = .ok j ∧
            j.GetChildren = .ok children ∧
            children.all (fun kv => kv.2.IsString) = true))) ∧
    (∀ m j children,
      LoadProvides env store = .ok m →
      jsonLoad ((lookupKV store artifact_provides_key).getD "") = .ok j →
      j.GetChildren = .ok children →
      (children.map Prod.fst).Nodup →
      (∀ kv ∈ children, lookupKV m kv.1 = some kv.2.GetStringD) ∧
      ((lookupKV store artifact_name_key).getD "" ≠ "" →
        "artifact_name" ∉ children.map Prod.fst →
        lookupKV m "artifact_name" = some ((lookupKV store artifact_name_key).getD "")) ∧
      ((lookupKV store artifact_name_key).getD "" = "" →
        "artifact_name" ∉ children.map Prod.fst →
        lookupKV m "artifact_name" = none) ∧
      ((lookupKV store artifact_group_key).getD "" ≠ "" →
        "artifact_group" ∉ children.map Prod.fst →
        lookupKV m "artifact_group" = some ((lookupKV store artifact_group_key).getD "")) ∧
      ((lookupKV store artifact_group_key).getD "" = "" →
        "artifact_group" ∉ children.map Prod.fst →
        lookupKV m "artifact_group" = none)) ∧
    (∀ m,
      (lookupKV store artifact_provides_key).getD "" = "" →
      LoadProvides env store = .ok m →
      ((lookupKV store artifact_name_key).getD "" ≠ "" →
        lookupKV m "artifact_name" = some ((lookupKV store artifact_name_key).getD "")) ∧
      ((lookupKV store artifact_name_key).getD "" = "" →
        lookupKV m "artifact_name" = none) ∧
      ((lookupKV store artifact_group_key).getD "" ≠ "" →
        lookupKV m "artifact_group" = some ((lookupKV store artifact_group_key).getD "")) ∧
      ((lookupKV store artifact_group_key).getD "" = "" →
        lookupKV m "artifact_group" = none)) := by
  refine ⟨?_, ?_, ?_⟩
  · unfold LoadProvides
    rcases hrf : env.db.readFault with _ | e
    · by_cases hp : (lookupKV store artifact_provides_key).getD "" = ""
      · simp [hp, Except.isOk, Except.toBool]
      · rcases hj : jsonLoad ((lookupKV store artifact_provides_key).getD "") with ej | j
        · simp [hp, hj, Except.isOk, Except.toBool]
        · rcases hc : j.GetChildren with ec | ch
          · simp [hp, hj, hc, Except.isOk, Except.toBool]
          · by_cases ha : ch.all (fun kv => kv.2.IsString) = true
            · rw [if_neg hp, hj]
              simp only [hc]
              rw [if_pos ha]
              simp only [List.all_eq_true] at ha
              simp only [Except.isOk, Except.toBool, hp, hj, hc]
              simp [hj, hc]
              exact fun a b hb => ha (a, b) hb
            · rw [if_neg hp, hj]
              simp only [hc]
              rw [if_neg ha]
              simp only [List.all_eq_true] at ha
              simp only [Except.isOk, Except.toBool, hp, hj, hc]
              simp [hj, hc]
              push_neg at ha
              rcases ha with ⟨p, hp2, hp3⟩
              exact ⟨p.1, p.2, hp2, by simpa using hp3⟩
    · simp [Except.isOk, Except.toBool]
  · intro m j children hm hj hc hnd
    have hpne : ¬((lookupKV store artifact_provides_key).getD "" = "") := by
      intro hp
      rw [hp] at hj
      rw [show jsonLoad "" =
        (.error ⟨.jsonParseError, "Failed to parse JSON"⟩ : Except ErrData Json) from rfl] at hj
      exact Except.noConfusion hj
    unfold LoadProvides at hm
    rcases hrf : env.db.readFault with _ | e
    · rw [hrf] at hm
      simp only [if_neg hpne, hj, hc] at hm
      by_cases ha : children.all (fun kv => kv.2.IsString) = true
      · rw [if_pos ha] at hm
        injection hm with hfold
        subst hfold
        have hkeys : ((children.map (fun kv => (kv.1, kv.2.GetStringD))).map Prod.fst) =
            children.map Prod.fst := by
          simp
        have hfold2 : ∀ b : List (String × String),
            children.foldl (fun acc kv => setEntry acc kv.1 kv.2.GetStringD) b =
            (children.map (fun kv => (kv.1, kv.2.GetStringD))).foldl
              (fun acc kv => setEntry acc kv.1 kv.2) b := by
          intro b
          rw [List.foldl_map]
        refine ⟨?_, ?_, ?_, ?_, ?_⟩
        · intro kv hkv
          rw [hfold2]
          exact lookupKV_foldl_mem _ _ _ _ (by rw [hkeys]; exact hnd)
            (List.mem_map_of_mem _ hkv)
        · intro h hnot
          rw [hfold2, lookupKV_foldl_not_mem _ _ _ (by rw [hkeys]; exact hnot),
            lookupKV_provides_base_name, if_pos h]
        · intro h hnot
          rw [hfold2, lookupKV_foldl_not_mem _ _ _ (by rw [hkeys]; exact hnot),
            lookupKV_provides_base_name, if_neg (by simp [h])]
        · intro h hnot
          rw [hfold2, lookupKV_foldl_not_mem _ _ _ (by rw [hkeys]; exact hnot),
            lookupKV_provides_base_group, if_pos h]
        · intro h hnot
          rw [hfold2, lookupKV_foldl_not_mem _ _ _ (by rw [hkeys]; exact hnot),
            lookupKV_provides_base_group, if_neg (by simp [h])]
      · rw [if_neg ha] at hm
        exact absurd hm (by simp)
    · rw [hrf] at hm
      exact absurd hm (by simp)
  · intro m hp hm
    unfold LoadProvides at hm
    rcases hrf : env.db.readFault with _ | e
    · rw [hrf] at hm
      rw [if_pos hp] at hm
      injection hm with hbase
      subst hbase
      refine ⟨?_, ?_, ?_, ?_⟩
      · intro h
        rw [lookupKV_provides_base_name, if_pos h]
      · intro h
        rw [lookupKV_provides_base_name, if_neg (by simp [h])]
      · intro h
        rw [lookupKV_provides_base_group, if_pos h]
      · intro h
        rw [lookupKV_provides_base_group, if_neg (by simp [h])]
    · rw [hrf] at hm
      exact absurd hm (by simp)

theorem C7_witness :
    LoadProvides envOk c7Store = .ok [("artifact_name", "art"), ("a", "1")] ∧
    lookupKV [("artifact_name", "art"), ("a", "1")] "a" = some "1" ∧
    lookupKV [("artifact_name", "art"), ("a", "1")] "artifact_name" = some "art" :=
  ⟨by decide,
    ((C7_load_provides envOk c7Store).2.1 [("artifact_name", "art"), ("a", "1")]
      c7Json [("a", Json.str "1")] (by decide) rfl rfl (by decide)).1
      ("a", Json.str "1") (List.mem_singleton.2 rfl),
    (((C7_load_provides envOk c7Store).2.1 [("artifact_name", "art"), ("a", "1")]
      c7Json [("a", Json.str "1")] (by decide) rfl rfl (by decide)).2.1
      (by decide) (by decide))⟩


/-! ### Claim C3: the save/load round trip of the standalone record -/

/-- C3 (amended): for every record whose version is the well-known constant,
whose artifact_name is non-empty, whose payload_types has length exactly one,
and whose string fields contain no double-quote and no backslash characters,
saving with `SaveStandaloneData` and loading with `LoadStandaloneData`
succeeds and yields the record back, field for field.  The benign-characters
restriction is forced by the hand-rolled serializer, which escapes nothing:
see `C3_counterexample`. -/
theorem C3_roundtrip (env : Env) (store : Store) (d : StandaloneData)
    (hwf : env.db.writeFault = none) (hrf : env.db.readFault = none)
    (hv : d.version = standalone_data_version) (hn : d.artifact_name ≠ "")
    (hp : d.payload_types.length = 1) (hb : benignData d) :
    ∃ store2, SaveStandaloneData env store d = .ok store2 ∧
      LoadStandaloneData env store2 = .ok (some d) := by
  refine ⟨setEntry store standalone_state_key (serializeStandaloneData d), ?_, ?_⟩
  · simp [SaveStandaloneData, hwf]
  · have hv1 : d.version = 1 := hv
    simp only [LoadStandaloneData, dbRead, hrf, lookupKV_setEntry_self,
      jsonLoad_serialize d hv1 hb, standaloneDataFromJson_recordJson d hv1 hn hp]

/-- A valid record (correct version, non-empty name, one payload type) whose
artifact_name contains a double quote: `SaveStandaloneData` writes it without
escaping, and `LoadStandaloneData` does not read the record back.  This
refutes the round trip for arbitrary string contents. -/
theorem C3_counterexample :
    c3Bad.version = standalone_data_version ∧ c3Bad.artifact_name ≠ "" ∧
    c3Bad.payload_types.length = 1 ∧
    SaveStandaloneData envOk [] c3Bad =
      .ok [(standalone_state_key, serializeStandaloneData c3Bad)] ∧
    LoadStandaloneData envOk [(standalone_state_key, serializeStandaloneData c3Bad)] ≠
      .ok (some c3Bad) := by
  refine ⟨rfl, by decide, rfl, rfl, ?_⟩
  decide

/-- The round trip at a concrete record with both optional fields present. -/
theorem C3_witness :
    (envOk.db.writeFault = none ∧ envOk.db.readFault = none ∧
      sampleData.version = standalone_data_version ∧ sampleData.artifact_name ≠ "" ∧
      sampleData.payload_types.length = 1 ∧ benignData sampleData) ∧
    ∃ store2, SaveStandaloneData envOk [] sampleData = .ok store2 ∧
      LoadStandaloneData envOk store2 = .ok (some sampleData) :=
  ⟨⟨rfl, rfl, rfl, by decide, rfl, by decide⟩,
    C3_roundtrip envOk [] sampleData rfl rfl rfl (by decide) rfl (by decide)⟩

end Mender



